import Mathlib

/-!
Loan engine of `amartha-assignment`

A shallow embedding of `internal/model`, `common/driver/inmemlib`, `common/driver/nsq`,
`internal/repository` and `internal/usecase`, followed by theorems about the loan state
machine and the investment aggregation.

Conventions of the embedding

* A stored `float64` amount is a finite value, given by its exact rational value (JSON decoding
  yields finite values only, `json.Marshal` stores no others); `int64` identifiers are
  integers.
* Arithmetic on amounts is `float64` arithmetic: `Float64.add` rounds every sum to the nearest
  binary64 value, ties to even, and overflows to an infinity.
* Every Go method `func (r T) M(args) error` becomes
  `T.M (d : Drivers) args (w : World) : Except String Unit × World`: the outcome together with
  the world after the call.  The world holds the cache entry under `CacheKeyLoans`, the messages
  the queue has accepted, and the number of driver calls made so far.
* `Drivers` says which driver calls fail (and with which message); the usecase is written
  against interfaces, so a failing collaborator is an admissible behaviour.
* `time.Now()` is an argument of the operations that read the clock.
-/

namespace Amartha

/-! ## `internal/model/loan.go` -/

/-- An instant as returned by `time.Now()`: nanoseconds since the Unix epoch. -/
structure Time where
  unixNano : Int
deriving DecidableEq, Repr

/-- The method `time.Time.UnixMilli`: whole milliseconds since the Unix epoch. -/
def Time.UnixMilli (t : Time) : Int := t.unixNano / 1000000

/-- The zero value of `time.Time` (January 1, year 1, 00:00:00 UTC). -/
def Time.zeroValue : Time := ⟨-62135596800000000000⟩

/-- The type `StateEnum` with its four constants, declared with `iota` in this order. -/
inductive StateEnum where
  | StateEnumProposed
  | StateEnumApproved
  | StateEnumInvested
  | StateEnumDisbursed
deriving DecidableEq, Repr

open StateEnum

/-- The numeric value `iota` gives to each constant. -/
def StateEnum.toInt : StateEnum → Int
  | StateEnumProposed => 0
  | StateEnumApproved => 1
  | StateEnumInvested => 2
  | StateEnumDisbursed => 3

structure ApprovalInfo where
  PictureProofURL : String
  FieldValidatorID : Int
  ApprovalDate : Time
deriving DecidableEq, Repr

structure Investment where
  InvestorID : Int
  InvestedAmount : ℚ
deriving DecidableEq, Repr

structure DisbursementInfo where
  SignedAgreementLetterURL : String
  FieldOfficerID : Int
  DisbursementDate : Time
deriving DecidableEq, Repr

structure Loan where
  LoanID : Int
  BorrowerID : Int
  PrincipalAmount : ℚ
  Rate : ℚ
  ROI : ℚ
  State : StateEnum
  ApprovalInfo : Amartha.ApprovalInfo
  Investments : List Investment
  DisbursementInfo : Amartha.DisbursementInfo
  AgreementLetterURL : String
deriving DecidableEq, Repr

structure LoanInformation where
  LoanID : Int
  BorrowerID : Int
  PrincipalAmount : ℚ
  Rate : ℚ
  ROI : ℚ
  AgreementLetterURL : String
deriving DecidableEq, Repr

/-- The zero value `model.ApprovalInfo{}`. -/
def ApprovalInfo.zeroValue : ApprovalInfo := ⟨"", 0, Time.zeroValue⟩

/-- The zero value `model.DisbursementInfo{}`. -/
def DisbursementInfo.zeroValue : DisbursementInfo := ⟨"", 0, Time.zeroValue⟩

/-- The zero value `model.Loan{}`, which a Go map lookup returns for a missing key. -/
def Loan.zeroValue : Loan :=
  { LoanID := 0, BorrowerID := 0, PrincipalAmount := 0, Rate := 0, ROI := 0,
    State := StateEnumProposed, ApprovalInfo := ApprovalInfo.zeroValue, Investments := [],
    DisbursementInfo := DisbursementInfo.zeroValue, AgreementLetterURL := "" }

/-- The zero value `model.LoanInformation{}`. -/
def LoanInformation.zeroValue : LoanInformation := ⟨0, 0, 0, 0, 0, ""⟩

/-! ## `float64` arithmetic (IEEE 754 binary64) -/

/-- A `float64` value: a finite value, given by its exact rational value, an infinity or NaN.
The two zeros are not told apart (they compare equal). -/
inductive Float64 where
  | finite (value : ℚ)
  | inf (negative : Bool)
  | nan
deriving DecidableEq, Repr

/-- The number of binary digits of `n`, computed with `fuel` halvings at most. -/
def Float64.bits : Nat → Nat → Nat
  | 0, _ => 0
  | fuel + 1, n => if n = 0 then 0 else Float64.bits fuel (n / 2) + 1

/-- The exponent of the leading binary digit of `n`: `2 ^ log2 n ≤ n < 2 ^ (log2 n + 1)` for
positive `n`. -/
def Float64.log2 (n : Nat) : Nat := Float64.bits n n - 1

/-- The exponent `e` of the leading binary digit of the positive rational `a / d`:
`2 ^ e ≤ a / d < 2 ^ (e + 1)`. -/
def Float64.exponent (a d : Nat) : Int :=
  let e0 : Int := (Float64.log2 a : Int) - (Float64.log2 d : Int)
  if a * 2 ^ (-e0).toNat < d * 2 ^ e0.toNat then e0 - 1 else e0

/-- The integer nearest to `n / m`, the even one of the two when `n / m` is half-way. -/
def Float64.nearestEven (n m : Nat) : Nat :=
  let quotient : Nat := n / m
  let rest : Nat := n % m
  if 2 * rest < m then quotient
  else if m < 2 * rest then quotient + 1
  else if quotient % 2 = 0 then quotient
  else quotient + 1

/-- The value of sign, mantissa and exponent `p` of the unit in the last place: an infinity
when the magnitude `mantissa * 2 ^ p` is `2 ^ 1024` or more. -/
def Float64.ofMantissa (negative : Bool) (mantissa : Nat) (p : Int) : Float64 :=
  if 2 ^ 1024 ≤ mantissa * 2 ^ p.toNat then .inf negative
  else
    let magnitude : ℚ :=
      ((mantissa * 2 ^ p.toNat : Nat) : ℚ) / ((2 ^ (-p).toNat : Nat) : ℚ)
    .finite (if negative then -magnitude else magnitude)

/-- Rounding of an exact result to binary64, to nearest, ties to even: 53 significant binary
digits, the unit in the last place never below `2 ^ (-1074)` (subnormal range), and a result
of magnitude `2 ^ 1024` or more becomes an infinity. -/
def Float64.round (q : ℚ) : Float64 :=
  if q = 0 then .finite 0
  else
    let a : Nat := q.num.natAbs
    let d : Nat := q.den
    -- the exponent of the unit in the last place
    let p : Int := max (Float64.exponent a d) (-1022) - 52
    -- `a / d = (a * 2 ^ (-p)) / (d * 2 ^ p) * 2 ^ p`, one of the two powers being `1`
    Float64.ofMantissa (decide (q < 0))
      (Float64.nearestEven (a * 2 ^ (-p).toNat) (d * 2 ^ p.toNat)) p

/-- The Go operator `+` on `float64`. -/
def Float64.add : Float64 → Float64 → Float64
  | .finite a, .finite b => Float64.round (a + b)
  | .finite _, .inf s => .inf s
  | .inf s, .finite _ => .inf s
  | .inf s, .inf t => if s = t then .inf s else .nan
  | _, _ => .nan

/-- The Go operator `<` on `float64`; false when an operand is NaN. -/
def Float64.lt : Float64 → Float64 → Bool
  | .finite a, .finite b => decide (a < b)
  | .finite _, .inf t => !t
  | .inf s, .finite _ => s
  | .inf s, .inf t => s && !t
  | _, _ => false

/-- The Go operator `>` on `float64`. -/
def Float64.gt (x y : Float64) : Bool := Float64.lt y x

/-- The Go operator `==` on `float64`; false when an operand is NaN. -/
def Float64.eq : Float64 → Float64 → Bool
  | .finite a, .finite b => decide (a = b)
  | .inf s, .inf t => s == t
  | _, _ => false

/-- The Go operator `<=` on `float64`. -/
def Float64.le (x y : Float64) : Bool := Float64.lt x y || Float64.eq x y

/-! ## The Go map `map[int64]model.Loan` -/

/-- A `map[int64]model.Loan` as an association list; the list order stands for the
(unspecified) iteration order of the Go map. -/
abbrev LoanMap := List (Int × Loan)

/-- The lookup with presence flag, `v, ok := m[k]`. -/
def LoanMap.find? : LoanMap → Int → Option Loan
  | [], _ => none
  | (k', v) :: rest, k => if k' = k then some v else LoanMap.find? rest k

/-- The Go expression `m[k]`: the stored value, or the zero value when the key is missing. -/
def LoanMap.index (m : LoanMap) (k : Int) : Loan :=
  match LoanMap.find? m k with
  | some v => v
  | none => Loan.zeroValue

/-- The Go statement `m[k] = v`: replaces the value of an existing key, adds a new key
otherwise. -/
def LoanMap.assign : LoanMap → Int → Loan → LoanMap
  | [], k, v => [(k, v)]
  | (k', v') :: rest, k, v =>
    if k' = k then (k, v) :: rest else (k', v') :: LoanMap.assign rest k v

/-- The values in iteration order, `for _, v := range m`. -/
def LoanMap.values (m : LoanMap) : List Loan := m.map Prod.snd

/-! ## The drivers: `common/driver/inmemlib` and `common/driver/nsq` -/

/-- A JSON scalar of a message payload. -/
inductive Value where
  | int (i : Int)
  | num (q : ℚ)
deriving DecidableEq, Repr

/-- A message handed to `NSQ.Send`: the channel and the `map[string]interface{}` payload. -/
structure Message where
  channel : String
  payload : List (String × Value)
deriving DecidableEq, Repr

/-- The state outside the engine. -/
structure World where
  /-- The decoded cache entry under `CacheKeyLoans`; `none` while the key is absent. -/
  cache : Option LoanMap
  /-- The messages accepted by the queue, oldest first. -/
  sent : List Message
  /-- The number of driver calls (cache get, cache set, queue send) made so far. -/
  calls : Nat
deriving DecidableEq, Repr

/-- The behaviour of the collaborators behind the interfaces: `d n = some e` makes the driver
call number `n` (counting from the `calls` field of the world) return the error `e`. -/
abbrev Drivers := Nat → Option String

/-- All collaborators work: no driver call fails. -/
def Drivers.working : Drivers := fun _ => none

/-- The method `InMemLib.Get` on `CacheKeyLoans`, with `json.Unmarshal` into `loanMap` as the
callback: returns `exists` and the value `loanMap` has afterwards, given its value `init`
before the call. -/
def InMemLib.Get (d : Drivers) (init : LoanMap) (w : World) :
    Except String (Bool × LoanMap) × World :=
  let w1 := { w with calls := w.calls + 1 }
  match d w.calls with
  | some e => (.error e, w1)
  | none =>
    match w.cache with
    | none => (.ok (false, init), w1)
    | some m => (.ok (true, m), w1)

/-- The method `InMemLib.Set` on `CacheKeyLoans`; a failed write stores nothing. -/
def InMemLib.Set (d : Drivers) (value : LoanMap) (w : World) : Except String Unit × World :=
  match d w.calls with
  | some e => (.error e, { w with calls := w.calls + 1 })
  | none => (.ok (), { w with cache := some value, calls := w.calls + 1 })

/-- The method `NSQ.Send`; a failed send delivers nothing. -/
def NSQ.Send (d : Drivers) (channel : String) (value : List (String × Value)) (w : World) :
    Except String Unit × World :=
  match d w.calls with
  | some e => (.error e, { w with calls := w.calls + 1 })
  | none => (.ok (), { w with sent := w.sent ++ [⟨channel, value⟩], calls := w.calls + 1 })

/-! ## `internal/repository/repository.go` -/

def EmailAgreementLetterChannel : String := "email_agreement_letter"

def GenerateAgreementLetterChannel : String := "generate_agreement_letter"

def Repository.InsertLoan (d : Drivers) (loan : Loan) (w : World) : Except String Unit × World :=
  match InMemLib.Get d [] w with
  | (.error e, w1) => (.error ("failed to get loans from memcache: " ++ e), w1)
  | (.ok (found, loanMap), w1) =>
    let loanMap := if !found then [] else loanMap
    let loanMap := LoanMap.assign loanMap loan.LoanID loan
    match InMemLib.Set d loanMap w1 with
    | (.error e, w2) => (.error ("failed to set updated loan data in memcache: " ++ e), w2)
    | (.ok (), w2) => (.ok (), w2)

def Repository.GetLoans (d : Drivers) (w : World) : Except String (List Loan) × World :=
  match InMemLib.Get d [] w with
  | (.error e, w1) => (.error ("failed to get loans from memcache: " ++ e), w1)
  | (.ok (_, loanMap), w1) => (.ok (LoanMap.values loanMap), w1)

def Repository.GetLoan (d : Drivers) (loanID : Int) (w : World) : Except String Loan × World :=
  match InMemLib.Get d [] w with
  | (.error e, w1) => (.error ("failed to get loans from memcache: " ++ e), w1)
  | (.ok (_, loanMap), w1) => (.ok (LoanMap.index loanMap loanID), w1)

def Repository.UpdateLoan (d : Drivers) (loan : Loan) (w : World) : Except String Unit × World :=
  match InMemLib.Get d [] w with
  | (.error e, w1) => (.error ("failed to get loans from cache: " ++ e), w1)
  | (.ok (_, loanMap), w1) =>
    let loanMap := LoanMap.assign loanMap loan.LoanID loan
    match InMemLib.Set d loanMap w1 with
    | (.error e, w2) => (.error ("failed to update loans in cache: " ++ e), w2)
    | (.ok (), w2) => (.ok (), w2)

/-- The payload of `Repository.Publish`, keys in the order `json.Marshal` writes them. -/
def emailPayload (loanID : Int) (invesment : Investment) : List (String × Value) :=
  [("invested_amount", .num invesment.InvestedAmount),
   ("investor_id", .int invesment.InvestorID),
   ("loan_id", .int loanID)]

def Repository.Publish (d : Drivers) (loanID : Int) (invesment : Investment) (w : World) :
    Except String Unit × World :=
  NSQ.Send d EmailAgreementLetterChannel (emailPayload loanID invesment) w

def Repository.GenerateAgreementLetter (d : Drivers) (loanID : Int) (w : World) :
    Except String Unit × World :=
  NSQ.Send d GenerateAgreementLetterChannel [("loan_id", .int loanID)] w

/-! ## `internal/usecase/usecase.go` -/

def Usecase.CreateLoan (d : Drivers) (now : Time) (borrowerID : Int)
    (principalAmount rate roi : ℚ) (w : World) : Except String Unit × World :=
  let loan : Loan :=
    { Loan.zeroValue with
      LoanID := now.UnixMilli
      BorrowerID := borrowerID
      PrincipalAmount := principalAmount
      Rate := rate
      ROI := roi
      State := StateEnumProposed }
  match Repository.InsertLoan d loan w with
  | (.error e, w1) => (.error ("failed to insert loan: " ++ e), w1)
  | (.ok (), w1) =>
    match Repository.GenerateAgreementLetter d loan.LoanID w1 with
    | (.error e, w2) => (.error ("failed to generate agreement letter: " ++ e), w2)
    | (.ok (), w2) => (.ok (), w2)

/-- The projection both `GetLoans` and `GetLoan` build from a loan. -/
def Loan.information (loan : Loan) : LoanInformation :=
  { LoanID := loan.LoanID
    BorrowerID := loan.BorrowerID
    PrincipalAmount := loan.PrincipalAmount
    Rate := loan.Rate
    ROI := loan.ROI
    AgreementLetterURL := loan.AgreementLetterURL }

def Usecase.GetLoans (d : Drivers) (w : World) : Except String (List LoanInformation) × World :=
  match Repository.GetLoans d w with
  | (.error e, w1) => (.error ("failed to get loans from repository: " ++ e), w1)
  | (.ok loans, w1) => (.ok (loans.map Loan.information), w1)

def Usecase.GetLoan (d : Drivers) (loanID : Int) (w : World) :
    Except String LoanInformation × World :=
  match Repository.GetLoan d loanID w with
  | (.error e, w1) => (.error ("failed to get loan from repository: " ++ e), w1)
  | (.ok loan, w1) =>
    if loan.LoanID = 0 then (.error "loan not found", w1)
    else (.ok loan.information, w1)

def Usecase.Approve (d : Drivers) (now : Time) (loanID : Int) (pictureProofURL : String)
    (fieldValidatorID : Int) (w : World) : Except String Unit × World :=
  if pictureProofURL = "" ∨ fieldValidatorID = 0 then
    (.error "approval info is incomplete", w)
  else
    match Repository.GetLoan d loanID w with
    | (.error e, w1) => (.error ("failed to get loan: " ++ e), w1)
    | (.ok loan, w1) =>
      if loan.LoanID = 0 then (.error "loan not found", w1)
      else if loan.State ≠ StateEnumProposed then
        (.error "loan is already approved, invested, or disbursed", w1)
      else
        let loan := { loan with
          ApprovalInfo :=
            { PictureProofURL := pictureProofURL
              FieldValidatorID := fieldValidatorID
              ApprovalDate := now }
          State := StateEnumApproved }
        match Repository.UpdateLoan d loan w1 with
        | (.error e, w2) => (.error ("failed to update loan: " ++ e), w2)
        | (.ok (), w2) => (.ok (), w2)

/-- The accumulation loop of `Invest`: `total += inv.InvestedAmount` over the investments, in
`float64` arithmetic, starting from the amount of the new investment. -/
def totalInvested (start : ℚ) (investments : List Investment) : Float64 :=
  investments.foldl (fun total inv => Float64.add total (.finite inv.InvestedAmount))
    (.finite start)

/-- The dispatch loop of `Invest`: one `Publish` per investment, stopping at the first error. -/
def publishAll (d : Drivers) (loanID : Int) : List Investment → World → Except String Unit × World
  | [], w => (.ok (), w)
  | inv :: rest, w =>
    match Repository.Publish d loanID inv w with
    | (.error e, w1) => (.error ("failed to publish agreement letter: " ++ e), w1)
    | (.ok (), w1) => publishAll d loanID rest w1

def Usecase.Invest (d : Drivers) (loanID : Int) (investment : Investment) (w : World) :
    Except String Unit × World :=
  if investment.InvestorID = 0 ∨ investment.InvestedAmount ≤ 0 then
    (.error "invalid investment details", w)
  else
    match Repository.GetLoan d loanID w with
    | (.error e, w1) => (.error ("failed to get loan: " ++ e), w1)
    | (.ok loan, w1) =>
      if loan.LoanID = 0 then (.error "loan not found", w1)
      else if loan.State ≠ StateEnumApproved then (.error "loan is not in approved state", w1)
      else
        let totalInvestedAmount := totalInvested investment.InvestedAmount loan.Investments
        if Float64.gt totalInvestedAmount (.finite loan.PrincipalAmount) then
          (.error "total invested amount exceeds principal amount", w1)
        else
          let loan := { loan with Investments := loan.Investments ++ [investment] }
          if Float64.eq totalInvestedAmount (.finite loan.PrincipalAmount) then
            let loan := { loan with
              State := StateEnumInvested
              AgreementLetterURL := "https://example.com/agreement_letter.pdf" }
            match publishAll d loan.LoanID loan.Investments w1 with
            | (.error e, w2) => (.error e, w2)
            | (.ok (), w2) =>
              match Repository.UpdateLoan d loan w2 with
              | (.error e, w3) => (.error ("failed to update loan: " ++ e), w3)
              | (.ok (), w3) => (.ok (), w3)
          else
            match Repository.UpdateLoan d loan w1 with
            | (.error e, w2) => (.error ("failed to update loan: " ++ e), w2)
            | (.ok (), w2) => (.ok (), w2)

def Usecase.Disburse (d : Drivers) (now : Time) (loanID : Int)
    (signedAgreementLetterURL : String) (fieldOfficerID : Int) (w : World) :
    Except String Unit × World :=
  if signedAgreementLetterURL = "" ∨ fieldOfficerID = 0 then
    (.error "agreement letter URL or field officer ID is empty", w)
  else
    match Repository.GetLoan d loanID w with
    | (.error e, w1) => (.error ("failed to get loan: " ++ e), w1)
    | (.ok loan, w1) =>
      if loan.LoanID = 0 then (.error "loan not found", w1)
      else if loan.State ≠ StateEnumInvested then
        (.error "loan can only be disbursed if status is invested", w1)
      else
        let loan := { loan with
          State := StateEnumDisbursed
          DisbursementInfo :=
            { SignedAgreementLetterURL := signedAgreementLetterURL
              FieldOfficerID := fieldOfficerID
              DisbursementDate := now } }
        match Repository.UpdateLoan d loan w1 with
        | (.error e, w2) => (.error ("failed to update loan: " ++ e), w2)
        | (.ok (), w2) => (.ok (), w2)

def Usecase.AdminViewLoans (d : Drivers) (w : World) : Except String (List Loan) × World :=
  match Repository.GetLoans d w with
  | (.error e, w1) => (.error ("failed to get loans from repository: " ++ e), w1)
  | (.ok loans, w1) => (.ok loans, w1)

/-! ## Observations and executions -/

deriving instance DecidableEq for Except

/-- The loans the store holds: the cached map, empty while the cache key is absent. -/
def World.loans (w : World) : LoanMap :=
  match w.cache with
  | none => []
  | some m => m

/-- The record the store holds under `loanID`, if any. -/
def World.loan? (w : World) (loanID : Int) : Option Loan := LoanMap.find? w.loans loanID

/-- The exact total `sum(investments.amount)` of a sequence of investments, the amounts taken
as exact numbers. -/
def sumInvested (investments : List Investment) : ℚ :=
  (investments.map Investment.InvestedAmount).sum

/-- The world a fresh process starts from (`NewRepository`): empty cache, nothing sent. -/
def World.initial : World := ⟨none, [], 0⟩

/-- A call of one of the seven operations of `UsecaseInterface`, with its arguments and, where
the operation reads the clock, the reading it gets. -/
inductive Call where
  | CreateLoan (now : Time) (borrowerID : Int) (principalAmount rate roi : ℚ)
  | GetLoans
  | GetLoan (loanID : Int)
  | Approve (now : Time) (loanID : Int) (pictureProofURL : String) (fieldValidatorID : Int)
  | Invest (loanID : Int) (investment : Investment)
  | Disburse (now : Time) (loanID : Int) (signedAgreementLetterURL : String)
      (fieldOfficerID : Int)
  | AdminViewLoans
deriving DecidableEq, Repr

/-- The world after a call. -/
def Call.run (d : Drivers) : Call → World → World
  | .CreateLoan now b p r roi, w => (Usecase.CreateLoan d now b p r roi w).2
  | .GetLoans, w => (Usecase.GetLoans d w).2
  | .GetLoan loanID, w => (Usecase.GetLoan d loanID w).2
  | .Approve now loanID url vid, w => (Usecase.Approve d now loanID url vid w).2
  | .Invest loanID inv, w => (Usecase.Invest d loanID inv w).2
  | .Disburse now loanID url oid, w => (Usecase.Disburse d now loanID url oid w).2
  | .AdminViewLoans, w => (Usecase.AdminViewLoans d w).2

/-- The world after a sequence of calls, first call first. -/
def runCalls (d : Drivers) : List Call → World → World
  | [], w => w
  | c :: cs, w => runCalls d cs (c.run d w)

/-- The message `Repository.Publish` sends for one investment of a loan. -/
def emailMessage (loanID : Int) (inv : Investment) : Message :=
  ⟨EmailAgreementLetterChannel, emailPayload loanID inv⟩

/-- The record `CreateLoan` builds from its arguments and the clock reading. -/
def createdLoan (now : Time) (borrowerID : Int) (principalAmount rate roi : ℚ) : Loan :=
  { LoanID := now.UnixMilli
    BorrowerID := borrowerID
    PrincipalAmount := principalAmount
    Rate := rate
    ROI := roi
    State := StateEnumProposed
    ApprovalInfo := ApprovalInfo.zeroValue
    Investments := []
    DisbursementInfo := DisbursementInfo.zeroValue
    AgreementLetterURL := "" }

/-- The record `Invest` hands to `UpdateLoan`: the investment appended, and, when the running
total equals the principal, the state `Invested` and the agreement letter URL. -/
def investedLoan (loan : Loan) (investment : Investment) : Loan :=
  let appended := { loan with Investments := loan.Investments ++ [investment] }
  if Float64.eq (totalInvested investment.InvestedAmount loan.Investments)
      (.finite loan.PrincipalAmount) then
    { appended with
      State := StateEnumInvested
      AgreementLetterURL := "https://example.com/agreement_letter.pdf" }
  else appended

/-- The record `Approve` hands to `UpdateLoan`. -/
def approvedLoan (loan : Loan) (now : Time) (pictureProofURL : String)
    (fieldValidatorID : Int) : Loan :=
  { loan with
    ApprovalInfo := ⟨pictureProofURL, fieldValidatorID, now⟩
    State := StateEnumApproved }

/-- The record `Disburse` hands to `UpdateLoan`. -/
def disbursedLoan (loan : Loan) (now : Time) (signedAgreementLetterURL : String)
    (fieldOfficerID : Int) : Loan :=
  { loan with
    State := StateEnumDisbursed
    DisbursementInfo := ⟨signedAgreementLetterURL, fieldOfficerID, now⟩ }

/-! ## Sample data -/

/-- An approved loan of principal 1000 with one investment of 600. -/
def sampleApproved : Loan :=
  { LoanID := 1, BorrowerID := 5, PrincipalAmount := 1000, Rate := 0, ROI := 0,
    State := StateEnumApproved, ApprovalInfo := ⟨"p.jpg", 7, ⟨0⟩⟩,
    Investments := [⟨1, 600⟩], DisbursementInfo := DisbursementInfo.zeroValue,
    AgreementLetterURL := "" }

/-- A world whose store holds `sampleApproved` under its identifier. -/
def sampleWorld : World := ⟨some [(1, sampleApproved)], [], 0⟩

/-- A proposed loan of principal 1000, as `CreateLoan` builds it. -/
def sampleProposed : Loan :=
  { LoanID := 2, BorrowerID := 5, PrincipalAmount := 1000, Rate := 0, ROI := 0,
    State := StateEnumProposed, ApprovalInfo := ApprovalInfo.zeroValue,
    Investments := [], DisbursementInfo := DisbursementInfo.zeroValue,
    AgreementLetterURL := "" }

/-- A world whose store holds `sampleProposed` under its identifier. -/
def sampleProposedWorld : World := ⟨some [(2, sampleProposed)], [], 0⟩

/-- A clock reading: 2023-11-14 22:13:20 UTC. -/
def sampleNow : Time := ⟨1700000000000000000⟩

/-- A clock reading 400 microseconds after `sampleNow`, within the same millisecond. -/
def sampleNowLater : Time := ⟨1700000000000400000⟩

/-- The scenario of creating a loan of principal 1000 and approving it. -/
def sampleApproveCalls : List Call :=
  [.CreateLoan sampleNow 5 1000 0 0, .Approve sampleNow 1700000000000 "p.jpg" 7]

/-- The scenario of a full life cycle: create, approve, invest 600, invest 400, disburse. -/
def sampleLifeCycle : List Call :=
  [.CreateLoan sampleNow 5 1000 0 0,
   .Approve sampleNow 1700000000000 "p.jpg" 7,
   .Invest 1700000000000 ⟨1, 600⟩,
   .Invest 1700000000000 ⟨2, 400⟩,
   .Disburse sampleNowLater 1700000000000 "signed.pdf" 9]

/-- The record the store holds at the end of `sampleLifeCycle`. -/
def sampleDisbursed : Loan :=
  { LoanID := 1700000000000, BorrowerID := 5, PrincipalAmount := 1000, Rate := 0, ROI := 0,
    State := StateEnumDisbursed, ApprovalInfo := ⟨"p.jpg", 7, sampleNow⟩,
    Investments := [⟨1, 600⟩, ⟨2, 400⟩],
    DisbursementInfo := ⟨"signed.pdf", 9, sampleNowLater⟩,
    AgreementLetterURL := "https://example.com/agreement_letter.pdf" }

/-- A property holds of every record in the store. -/
def World.All (P : Loan → Prop) (w : World) : Prop :=
  ∀ (loanID : Int) (l : Loan), w.loan? loanID = some l → P l

/-- The running total `Invest` computed when it accepted the last investment of the sequence:
the amount of the last investment, then the earlier amounts added in order, in `float64`
arithmetic; zero for no investments. -/
def runningTotal (investments : List Investment) : Float64 :=
  match investments.getLast? with
  | none => .finite 0
  | some last => totalInvested last.InvestedAmount investments.dropLast

/-- The funding invariant of a record, together with a positive principal. -/
def Loan.Sound (l : Loan) : Prop :=
  0 < l.PrincipalAmount ∧
    Float64.le (runningTotal l.Investments) (.finite l.PrincipalAmount) = true ∧
    (l.State = StateEnumProposed → l.Investments = []) ∧
    ((l.State = StateEnumInvested ∨ l.State = StateEnumDisbursed) ↔
      Float64.eq (runningTotal l.Investments) (.finite l.PrincipalAmount) = true)

/-- The principal a call of `CreateLoan` is given is positive; true of every other call. -/
def Call.PositivePrincipal : Call → Prop
  | .CreateLoan _ _ principalAmount _ _ => 0 < principalAmount
  | _ => True

/-- Collaborators of which exactly the driver call number `n` fails, with the error `e`. -/
def Drivers.failAt (n : Nat) (e : String) : Drivers := fun k => if k = n then some e else none

/-- Every record is stored under its own identifier, as `InsertLoan` and `UpdateLoan` store
it. -/
def World.Keyed (w : World) : Prop :=
  ∀ (loanID : Int) (l : Loan), w.loan? loanID = some l → l.LoanID = loanID

/-- The call is a `CreateLoan` whose clock reading gives the identifier `loanID`. -/
def Call.Creates : Call → Int → Prop
  | .CreateLoan now _ _ _ _, loanID => now.UnixMilli = loanID
  | _, _ => False

/-- A fully funded loan of principal 1000, in state `Invested`. -/
def sampleInvested : Loan :=
  { LoanID := 3, BorrowerID := 5, PrincipalAmount := 1000, Rate := 0, ROI := 0,
    State := StateEnumInvested, ApprovalInfo := ⟨"p.jpg", 7, ⟨0⟩⟩,
    Investments := [⟨1, 600⟩, ⟨2, 400⟩], DisbursementInfo := DisbursementInfo.zeroValue,
    AgreementLetterURL := "https://example.com/agreement_letter.pdf" }

/-- A world whose store holds `sampleInvested` under its identifier. -/
def sampleInvestedWorld : World := ⟨some [(3, sampleInvested)], [], 0⟩

/-- The fields given at creation are the same in both records. -/
def Loan.SameTerms (l l' : Loan) : Prop :=
  l'.LoanID = l.LoanID ∧ l'.BorrowerID = l.BorrowerID ∧
    l'.PrincipalAmount = l.PrincipalAmount ∧ l'.Rate = l.Rate ∧ l'.ROI = l.ROI

/-- The agreement letter URL of a record that is not yet funded is empty. -/
def Loan.LetterPending (l : Loan) : Prop :=
  l.State = StateEnumProposed ∨ l.State = StateEnumApproved → l.AgreementLetterURL = ""

/-- The scenario of creating a loan of principal 1000, approving it and investing 600. -/
def samplePartlyFundedCalls : List Call :=
  [.CreateLoan sampleNow 5 1000 0 0,
   .Approve sampleNow 1700000000000 "p.jpg" 7,
   .Invest 1700000000000 ⟨1, 600⟩]

/-- The record the store holds at the end of `samplePartlyFundedCalls`. -/
def samplePartlyFunded : Loan :=
  { LoanID := 1700000000000, BorrowerID := 5, PrincipalAmount := 1000, Rate := 0, ROI := 0,
    State := StateEnumApproved, ApprovalInfo := ⟨"p.jpg", 7, sampleNow⟩,
    Investments := [⟨1, 600⟩], DisbursementInfo := DisbursementInfo.zeroValue,
    AgreementLetterURL := "" }

/-- The scenario of a loan of principal `1e16`, approved, with one investment of `1`.  Above
`2 ^ 53` the binary64 values are the even integers, so `1e16 + 1` is not one of them. -/
def sampleLargeCalls : List Call :=
  [.CreateLoan sampleNow 5 10000000000000000 0 0,
   .Approve sampleNow 1700000000000 "p.jpg" 7,
   .Invest 1700000000000 ⟨1, 1⟩]

/-- The scenario of a loan of principal `1e16 + 2`, approved, with investments of `1e16` and
`1`. -/
def sampleLargeTwoCalls : List Call :=
  [.CreateLoan sampleNow 5 10000000000000002 0 0,
   .Approve sampleNow 1700000000000 "p.jpg" 7,
   .Invest 1700000000000 ⟨1, 10000000000000000⟩,
   .Invest 1700000000000 ⟨2, 1⟩]

/-- The record the store holds at the end of `sampleLargeCalls`. -/
def sampleLarge : Loan :=
  { LoanID := 1700000000000, BorrowerID := 5, PrincipalAmount := 10000000000000000,
    Rate := 0, ROI := 0, State := StateEnumApproved,
    ApprovalInfo := ⟨"p.jpg", 7, sampleNow⟩, Investments := [⟨1, 1⟩],
    DisbursementInfo := DisbursementInfo.zeroValue, AgreementLetterURL := "" }

/-- The record `sampleLarge` with a further investment of `amount` by investor 2, funded. -/
def sampleLargeFunded (amount : ℚ) : Loan :=
  { sampleLarge with
    State := StateEnumInvested
    Investments := [⟨1, 1⟩, ⟨2, amount⟩]
    AgreementLetterURL := "https://example.com/agreement_letter.pdf" }

/-- The record the store holds at the end of `sampleLargeTwoCalls`. -/
def sampleLargeTwo : Loan :=
  { LoanID := 1700000000000, BorrowerID := 5, PrincipalAmount := 10000000000000002,
    Rate := 0, ROI := 0, State := StateEnumApproved,
    ApprovalInfo := ⟨"p.jpg", 7, sampleNow⟩,
    Investments := [⟨1, 10000000000000000⟩, ⟨2, 1⟩],
    DisbursementInfo := DisbursementInfo.zeroValue, AgreementLetterURL := "" }

/-! ## The map -/

theorem LoanMap.find?_assign_self (m : LoanMap) (k : Int) (v : Loan) :
    LoanMap.find? (LoanMap.assign m k v) k = some v := by
  induction m with
  | nil => simp [LoanMap.assign, LoanMap.find?]
  | cons p rest ih =>
    obtain ⟨k', v'⟩ := p
    by_cases h : k' = k
    · simp [LoanMap.assign, LoanMap.find?, h]
    · simp [LoanMap.assign, LoanMap.find?, h, ih]

theorem LoanMap.find?_assign_of_ne (m : LoanMap) (k j : Int) (v : Loan) (hne : j ≠ k) :
    LoanMap.find? (LoanMap.assign m k v) j = LoanMap.find? m j := by
  induction m with
  | nil =>
    have : ¬ k = j := fun h => hne h.symm
    simp [LoanMap.assign, LoanMap.find?, this]
  | cons p rest ih =>
    obtain ⟨k', v'⟩ := p
    by_cases h : k' = k
    · subst h
      have hj : ¬ k' = j := fun e => hne e.symm
      simp [LoanMap.assign, LoanMap.find?, hj]
    · by_cases hj : k' = j
      · subst hj
        simp [LoanMap.assign, LoanMap.find?, h]
      · simp [LoanMap.assign, LoanMap.find?, h, hj, ih]

theorem LoanMap.index_of_find? {m : LoanMap} {k : Int} {l : Loan}
    (h : LoanMap.find? m k = some l) : LoanMap.index m k = l := by
  simp [LoanMap.index, h]

theorem LoanMap.find?_of_index_ne_zero {m : LoanMap} {k : Int}
    (h : (LoanMap.index m k).LoanID ≠ 0) : LoanMap.find? m k = some (LoanMap.index m k) := by
  unfold LoanMap.index at h ⊢
  cases hf : LoanMap.find? m k with
  | none => simp [hf, Loan.zeroValue] at h
  | some v => rfl

theorem sumInvested_append (xs : List Investment) (inv : Investment) :
    sumInvested (xs ++ [inv]) = inv.InvestedAmount + sumInvested xs := by
  simp [sumInvested, add_comm]

/-! ## The repository -/

theorem Repository.GetLoan_eq (d : Drivers) (loanID : Int) (w : World) :
    Repository.GetLoan d loanID w =
      match d w.calls with
      | some e =>
        (.error ("failed to get loans from memcache: " ++ e), { w with calls := w.calls + 1 })
      | none => (.ok (LoanMap.index w.loans loanID), { w with calls := w.calls + 1 }) := by
  unfold Repository.GetLoan InMemLib.Get World.loans
  cases d w.calls <;> cases w.cache <;> rfl

theorem Repository.GetLoans_eq (d : Drivers) (w : World) :
    Repository.GetLoans d w =
      match d w.calls with
      | some e =>
        (.error ("failed to get loans from memcache: " ++ e), { w with calls := w.calls + 1 })
      | none => (.ok (LoanMap.values w.loans), { w with calls := w.calls + 1 }) := by
  unfold Repository.GetLoans InMemLib.Get World.loans
  cases d w.calls <;> cases w.cache <;> rfl

theorem Repository.UpdateLoan_eq (d : Drivers) (loan : Loan) (w : World) :
    Repository.UpdateLoan d loan w =
      match d w.calls with
      | some e =>
        (.error ("failed to get loans from cache: " ++ e), { w with calls := w.calls + 1 })
      | none =>
        match d (w.calls + 1) with
        | some e =>
          (.error ("failed to update loans in cache: " ++ e), { w with calls := w.calls + 2 })
        | none =>
          (.ok (), ⟨some (LoanMap.assign w.loans loan.LoanID loan), w.sent, w.calls + 2⟩) := by
  unfold Repository.UpdateLoan InMemLib.Get InMemLib.Set World.loans
  cases h0 : d w.calls <;> cases hc : w.cache <;> simp <;>
    cases h1 : d (w.calls + 1) <;> simp

theorem Repository.InsertLoan_eq (d : Drivers) (loan : Loan) (w : World) :
    Repository.InsertLoan d loan w =
      match d w.calls with
      | some e =>
        (.error ("failed to get loans from memcache: " ++ e), { w with calls := w.calls + 1 })
      | none =>
        match d (w.calls + 1) with
        | some e =>
          (.error ("failed to set updated loan data in memcache: " ++ e),
            { w with calls := w.calls + 2 })
        | none =>
          (.ok (), ⟨some (LoanMap.assign w.loans loan.LoanID loan), w.sent, w.calls + 2⟩) := by
  unfold Repository.InsertLoan InMemLib.Get InMemLib.Set World.loans
  cases h0 : d w.calls <;> cases hc : w.cache <;> simp <;>
    cases h1 : d (w.calls + 1) <;> simp

/-- What `UpdateLoan` does to the world: nothing is sent; the cache is untouched on failure and
holds the map with the record assigned under its own identifier on success. -/
theorem Repository.UpdateLoan_cases {d : Drivers} {loan : Loan} {w w' : World}
    {r : Except String Unit} (h : Repository.UpdateLoan d loan w = (r, w')) :
    w'.sent = w.sent ∧
      ((r ≠ .ok () ∧ w'.cache = w.cache) ∨
        (r = .ok () ∧ w'.cache = some (LoanMap.assign w.loans loan.LoanID loan))) := by
  rw [Repository.UpdateLoan_eq] at h
  cases h0 : d w.calls with
  | some e => simp [h0] at h; obtain ⟨rfl, rfl⟩ := h; simp
  | none =>
    cases h1 : d (w.calls + 1) with
    | some e => simp [h0, h1] at h; obtain ⟨rfl, rfl⟩ := h; simp
    | none => simp [h0, h1] at h; obtain ⟨rfl, rfl⟩ := h; simp

theorem Repository.InsertLoan_cases {d : Drivers} {loan : Loan} {w w' : World}
    {r : Except String Unit} (h : Repository.InsertLoan d loan w = (r, w')) :
    w'.sent = w.sent ∧
      ((r ≠ .ok () ∧ w'.cache = w.cache) ∨
        (r = .ok () ∧ w'.cache = some (LoanMap.assign w.loans loan.LoanID loan))) := by
  rw [Repository.InsertLoan_eq] at h
  cases h0 : d w.calls with
  | some e => simp [h0] at h; obtain ⟨rfl, rfl⟩ := h; simp
  | none =>
    cases h1 : d (w.calls + 1) with
    | some e => simp [h0, h1] at h; obtain ⟨rfl, rfl⟩ := h; simp
    | none => simp [h0, h1] at h; obtain ⟨rfl, rfl⟩ := h; simp

/-- The dispatch loop never touches the cache; when it completes, it has sent one message per
investment, in order. -/
theorem publishAll_cases (d : Drivers) (loanID : Int) (investments : List Investment) :
    ∀ (w w' : World) (r : Except String Unit), publishAll d loanID investments w = (r, w') →
      w'.cache = w.cache ∧
        (r = .ok () → w'.sent = w.sent ++ investments.map (emailMessage loanID)) := by
  induction investments with
  | nil =>
    intro w w' r h
    simp [publishAll] at h
    obtain ⟨rfl, rfl⟩ := h
    simp
  | cons inv rest ih =>
    intro w w' r h
    simp only [publishAll, Repository.Publish, NSQ.Send] at h
    cases h0 : d w.calls with
    | some e =>
      simp [h0] at h
      obtain ⟨rfl, rfl⟩ := h
      simp
    | none =>
      simp [h0] at h
      obtain ⟨hc, hs⟩ := ih _ _ _ h
      refine ⟨by simpa using hc, fun hr => ?_⟩
      rw [hs hr]
      simp [emailMessage]


/-! ## `float64` arithmetic -/

/-- With fuel `n` or more, `bits` is the number of binary digits of `n`. -/
theorem Float64.bits_spec : ∀ (fuel n : Nat), n ≤ fuel →
    n < 2 ^ Float64.bits fuel n ∧
      (0 < n → 0 < Float64.bits fuel n ∧ 2 ^ (Float64.bits fuel n - 1) ≤ n) := by
  intro fuel
  induction fuel with
  | zero =>
    intro n hn
    have h0 : n = 0 := Nat.le_zero.mp hn
    subst h0
    simp [Float64.bits]
  | succ fuel ih =>
    intro n hn
    by_cases h0 : n = 0
    · subst h0
      simp [Float64.bits]
    · have hpos : 0 < n := Nat.pos_of_ne_zero h0
      have hhalf : n / 2 ≤ fuel := by omega
      obtain ⟨hlt, hge⟩ := ih (n / 2) hhalf
      simp only [Float64.bits, if_neg h0]
      refine ⟨?_, fun _ => ⟨Nat.succ_pos _, ?_⟩⟩
      · rw [pow_succ]
        omega
      · simp only [Nat.add_sub_cancel]
        by_cases h1 : n / 2 = 0
        · rw [h1]
          have : Float64.bits fuel 0 = 0 := by cases fuel <;> simp [Float64.bits]
          rw [this]
          simpa using hpos
        · obtain ⟨hb, hpow⟩ := hge (Nat.pos_of_ne_zero h1)
          have hsplit : 2 ^ Float64.bits fuel (n / 2)
              = 2 ^ (Float64.bits fuel (n / 2) - 1) * 2 := by
            rw [← pow_succ]
            congr 1
            omega
          rw [hsplit]
          omega

theorem Float64.log2_spec (n : Nat) (hn : 0 < n) :
    2 ^ Float64.log2 n ≤ n ∧ n < 2 ^ (Float64.log2 n + 1) := by
  obtain ⟨hlt, hge⟩ := Float64.bits_spec n n (Nat.le_refl n)
  obtain ⟨hb, hpow⟩ := hge hn
  unfold Float64.log2
  refine ⟨hpow, ?_⟩
  have : Float64.bits n n - 1 + 1 = Float64.bits n n := by omega
  rw [this]
  exact hlt

/-- Sample roundings: `1e16 + 1` and `1e16 + 3` are half-way between neighbours and go to the
even one; `0.1 + 0.2` is not `0.3`; small integers add exactly; the largest finite value and
the overflow threshold; the subnormal range. -/
theorem Float64.round_samples :
    Float64.round (10000000000000000 + 1) = .finite 10000000000000000 ∧
    Float64.round (10000000000000000 + 3) = .finite 10000000000000004 ∧
    Float64.add (Float64.round (1 / 10)) (Float64.round (2 / 10))
      = .finite (1351079888211149 / 4503599627370496) ∧
    Float64.round (3 / 10) = .finite (5404319552844595 / 18014398509481984) ∧
    Float64.add (.finite 600) (.finite 400) = .finite 1000 ∧
    Float64.round (2 ^ 1024 - 2 ^ 970 - 1) = .finite (2 ^ 1024 - 2 ^ 971) ∧
    Float64.round (2 ^ 1024 - 2 ^ 970) = .inf false ∧
    Float64.round (-(2 ^ 1024)) = .inf true ∧
    Float64.round (3 / 2 ^ 1075) = .finite (1 / 2 ^ 1073) ∧
    Float64.round (1 / 2 ^ 1075) = .finite 0 := by
  decide!

theorem Float64.ofMantissa_ne_nan (negative : Bool) (mantissa : Nat) (p : Int) :
    Float64.ofMantissa negative mantissa p ≠ .nan := by
  unfold Float64.ofMantissa
  split <;> simp

theorem Float64.round_ne_nan (q : ℚ) : Float64.round q ≠ .nan := by
  unfold Float64.round
  split
  · simp
  · exact Float64.ofMantissa_ne_nan _ _ _

theorem Float64.add_finite_ne_nan {x : Float64} (q : ℚ) (hx : x ≠ .nan) :
    Float64.add x (.finite q) ≠ .nan := by
  cases x with
  | finite a => exact Float64.round_ne_nan _
  | inf s => simp [Float64.add]
  | nan => exact absurd rfl hx

/-- The running total of finite amounts is never NaN. -/
theorem totalInvested_ne_nan (start : ℚ) (investments : List Investment) :
    totalInvested start investments ≠ .nan := by
  unfold totalInvested
  have key : ∀ (l : List Investment) (x : Float64), x ≠ .nan →
      l.foldl (fun total inv => Float64.add total (.finite inv.InvestedAmount)) x ≠ .nan := by
    intro l
    induction l with
    | nil => intro x hx; simpa using hx
    | cons inv rest ih =>
      intro x hx
      simp only [List.foldl_cons]
      exact ih _ (Float64.add_finite_ne_nan _ hx)
  exact key investments _ (by simp)

/-- For a total that is not NaN, "not greater" is "less or equal". -/
theorem Float64.le_of_gt_eq_false {x : Float64} {p : ℚ} (hx : x ≠ .nan)
    (h : Float64.gt x (.finite p) = false) : Float64.le x (.finite p) = true := by
  cases x with
  | finite a =>
    simp only [Float64.gt, Float64.lt, decide_eq_false_iff_not, not_lt] at h
    simp only [Float64.le, Float64.lt, Float64.eq, Bool.or_eq_true, decide_eq_true_eq]
    exact lt_or_eq_of_le h
  | inf s =>
    cases s with
    | false => simp [Float64.gt, Float64.lt] at h
    | true => simp [Float64.le, Float64.lt]
  | nan => exact absurd rfl hx

theorem Float64.eq_eq_false_of_lt {x y : Float64} (h : Float64.lt x y = true) :
    Float64.eq x y = false := by
  cases x with
  | finite a =>
    cases y with
    | finite b =>
      simp only [Float64.lt, decide_eq_true_eq] at h
      simp only [Float64.eq, decide_eq_false_iff_not]
      exact ne_of_lt h
    | inf t => rfl
    | nan => rfl
  | inf s =>
    cases y with
    | finite b => rfl
    | inf t =>
      cases s <;> cases t <;> simp [Float64.lt, Float64.eq] at h ⊢
    | nan => rfl
  | nan => rfl

theorem Float64.gt_eq_false_of_eq {x y : Float64} (h : Float64.eq x y = true) :
    Float64.gt x y = false := by
  cases x with
  | finite a =>
    cases y with
    | finite b =>
      simp only [Float64.eq, decide_eq_true_eq] at h
      simp [Float64.gt, Float64.lt, h]
    | inf t => simp [Float64.eq] at h
    | nan => simp [Float64.eq] at h
  | inf s =>
    cases y with
    | finite b => simp [Float64.eq] at h
    | inf t =>
      cases s <;> cases t <;> simp [Float64.gt, Float64.lt, Float64.eq] at h ⊢
    | nan => simp [Float64.eq] at h
  | nan => simp [Float64.eq] at h

theorem runningTotal_append (investments : List Investment) (inv : Investment) :
    runningTotal (investments ++ [inv]) = totalInvested inv.InvestedAmount investments := by
  simp [runningTotal]

/-! ## The usecase: what each mutating operation does to the world -/

/-- Every run of `Invest` either fails and leaves the cache as it was, or succeeds: then the
investment was valid, the record read under `loanID` had a non-zero identifier, was `Approved`
and the running total was not greater than its principal, the cache holds the map with `investedLoan` assigned under
that record's identifier, and the messages sent are those of the funding case. -/
theorem Usecase.Invest_cases {d : Drivers} {loanID : Int} {inv : Investment} {w w' : World}
    {r : Except String Unit} (h : Usecase.Invest d loanID inv w = (r, w')) :
    (r ≠ .ok () ∧ w'.cache = w.cache) ∨
      (r = .ok () ∧ inv.InvestorID ≠ 0 ∧ 0 < inv.InvestedAmount ∧
        (LoanMap.index w.loans loanID).LoanID ≠ 0 ∧
        (LoanMap.index w.loans loanID).State = StateEnumApproved ∧
        Float64.gt (totalInvested inv.InvestedAmount (LoanMap.index w.loans loanID).Investments)
          (.finite (LoanMap.index w.loans loanID).PrincipalAmount) = false ∧
        w'.cache = some (LoanMap.assign w.loans (LoanMap.index w.loans loanID).LoanID
          (investedLoan (LoanMap.index w.loans loanID) inv)) ∧
        w'.sent = w.sent ++
          (if Float64.eq
                (totalInvested inv.InvestedAmount (LoanMap.index w.loans loanID).Investments)
                (.finite (LoanMap.index w.loans loanID).PrincipalAmount) = true
            then ((LoanMap.index w.loans loanID).Investments ++ [inv]).map
              (emailMessage (LoanMap.index w.loans loanID).LoanID)
            else [])) := by
  unfold Usecase.Invest at h
  rw [Repository.GetLoan_eq] at h
  by_cases hv : inv.InvestorID = 0 ∨ inv.InvestedAmount ≤ 0
  · simp only [hv, if_true] at h
    obtain ⟨rfl, rfl⟩ := Prod.mk.inj h
    exact Or.inl ⟨by simp, rfl⟩
  · simp only [hv, if_false] at h
    push_neg at hv
    cases h0 : d w.calls with
    | some e =>
      simp only [h0] at h
      obtain ⟨rfl, rfl⟩ := Prod.mk.inj h
      exact Or.inl ⟨by simp, rfl⟩
    | none =>
      simp only [h0] at h
      generalize LoanMap.index w.loans loanID = l at h ⊢
      by_cases hz : l.LoanID = 0
      · simp only [hz, if_true] at h
        obtain ⟨rfl, rfl⟩ := Prod.mk.inj h
        exact Or.inl ⟨by simp, rfl⟩
      · simp only [hz, if_false] at h
        by_cases hs : l.State = StateEnumApproved
        · rw [if_neg (not_not.mpr hs)] at h
          by_cases hgt : Float64.gt (totalInvested inv.InvestedAmount l.Investments)
              (.finite l.PrincipalAmount) = true
          · simp only [hgt, if_true] at h
            obtain ⟨rfl, rfl⟩ := Prod.mk.inj h
            exact Or.inl ⟨by simp, rfl⟩
          · simp only [hgt, if_false] at h
            have hgt' : Float64.gt (totalInvested inv.InvestedAmount l.Investments)
                (.finite l.PrincipalAmount) = false := by simpa using hgt
            by_cases heq : Float64.eq (totalInvested inv.InvestedAmount l.Investments)
                (.finite l.PrincipalAmount) = true
            · simp only [heq, if_true] at h
              rcases hp : publishAll d l.LoanID (l.Investments ++ [inv])
                { w with calls := w.calls + 1 } with ⟨rp, wp⟩
              rw [hp] at h
              obtain ⟨hpc, hps⟩ := publishAll_cases _ _ _ _ _ _ hp
              cases rp with
              | error e =>
                simp only at h
                obtain ⟨rfl, rfl⟩ := Prod.mk.inj h
                exact Or.inl ⟨by simp, by simpa using hpc⟩
              | ok u =>
                simp only at h
                rcases hu : Repository.UpdateLoan d
                  { l with Investments := l.Investments ++ [inv], State := StateEnumInvested,
                           AgreementLetterURL := "https://example.com/agreement_letter.pdf" }
                  wp with ⟨ru, wu⟩
                rw [hu] at h
                obtain ⟨hus, huc⟩ := Repository.UpdateLoan_cases hu
                have hwl : wp.loans = w.loans := by
                  simp only [World.loans]; rw [hpc]
                cases ru with
                | error e =>
                  simp only at h
                  obtain ⟨rfl, rfl⟩ := Prod.mk.inj h
                  rcases huc with ⟨_, hc⟩ | ⟨hc, _⟩
                  · exact Or.inl ⟨by simp, by rw [hc, hpc]⟩
                  · simp at hc
                | ok u2 =>
                  simp only at h
                  obtain ⟨rfl, rfl⟩ := Prod.mk.inj h
                  rcases huc with ⟨hc, _⟩ | ⟨_, hc⟩
                  · simp at hc
                  · refine Or.inr ⟨rfl, hv.1, hv.2, hz, hs, hgt', ?_, ?_⟩
                    · rw [hc, hwl]; simp [investedLoan, heq]
                    · rw [hus, hps rfl]; simp [heq]
            · simp only [heq, if_false] at h
              rcases hu : Repository.UpdateLoan d
                { l with Investments := l.Investments ++ [inv] }
                { w with calls := w.calls + 1 } with ⟨ru, wu⟩
              rw [hu] at h
              obtain ⟨hus, huc⟩ := Repository.UpdateLoan_cases hu
              cases ru with
              | error e =>
                simp only at h
                obtain ⟨rfl, rfl⟩ := Prod.mk.inj h
                rcases huc with ⟨_, hc⟩ | ⟨hc, _⟩
                · exact Or.inl ⟨by simp, by simpa using hc⟩
                · simp at hc
              | ok u2 =>
                simp only at h
                obtain ⟨rfl, rfl⟩ := Prod.mk.inj h
                rcases huc with ⟨hc, _⟩ | ⟨_, hc⟩
                · simp at hc
                · refine Or.inr ⟨rfl, hv.1, hv.2, hz, hs, hgt', ?_, ?_⟩
                  · rw [hc]; simp [investedLoan, heq, World.loans]
                  · rw [hus]; simp [heq]
        · simp only [ne_eq, hs, not_false_eq_true, if_true] at h
          obtain ⟨rfl, rfl⟩ := Prod.mk.inj h
          exact Or.inl ⟨by simp, rfl⟩

theorem publishAll_ok_of_working {d : Drivers} (hd : ∀ n, d n = none) (loanID : Int)
    (investments : List Investment) : ∀ w : World,
      (publishAll d loanID investments w).1 = .ok () := by
  induction investments with
  | nil => intro w; rfl
  | cons inv rest ih =>
    intro w
    simp only [publishAll, Repository.Publish, NSQ.Send, hd]
    exact ih _

/-- With working collaborators `Invest` succeeds on a valid investment into a loan that is
found and `Approved`, when the running total is not greater than the principal. -/
theorem Usecase.Invest_ok_of_working {d : Drivers} (hd : ∀ n, d n = none) {loanID : Int}
    {inv : Investment} {w : World}
    (hinv : inv.InvestorID ≠ 0) (hamt : 0 < inv.InvestedAmount)
    (hid : (LoanMap.index w.loans loanID).LoanID ≠ 0)
    (hstate : (LoanMap.index w.loans loanID).State = StateEnumApproved)
    (hle : Float64.gt (totalInvested inv.InvestedAmount (LoanMap.index w.loans loanID).Investments)
      (.finite (LoanMap.index w.loans loanID).PrincipalAmount) = false) :
    (Usecase.Invest d loanID inv w).1 = .ok () := by
  unfold Usecase.Invest
  rw [Repository.GetLoan_eq]
  have hv : ¬ (inv.InvestorID = 0 ∨ inv.InvestedAmount ≤ 0) := by
    push_neg; exact ⟨hinv, hamt⟩
  simp only [hv, if_false, hd]
  generalize LoanMap.index w.loans loanID = l at hid hstate hle ⊢
  rw [if_neg hid, if_neg (not_not.mpr hstate), if_neg (by simp [hle])]
  by_cases heq : Float64.eq (totalInvested inv.InvestedAmount l.Investments)
      (.finite l.PrincipalAmount) = true
  · simp only [heq, if_true]
    have hp := publishAll_ok_of_working hd l.LoanID (l.Investments ++ [inv])
      { w with calls := w.calls + 1 }
    rcases hpe : publishAll d l.LoanID (l.Investments ++ [inv])
      { w with calls := w.calls + 1 } with ⟨rp, wp⟩
    rw [hpe] at hp
    simp only at hp
    subst hp
    simp only [Repository.UpdateLoan_eq, hd]
  · rw [if_neg heq]
    simp only [Repository.UpdateLoan_eq, hd]

/-- The value of `Invest` on a stored loan that is not `Approved`. -/
theorem Usecase.Invest_eq_of_not_approved (d : Drivers) {loanID : Int} {l : Loan}
    (inv : Investment) {w : World}
    (hstored : w.loan? loanID = some l) (hstate : l.State ≠ StateEnumApproved) :
    Usecase.Invest d loanID inv w =
      if inv.InvestorID = 0 ∨ inv.InvestedAmount ≤ 0 then
        (.error "invalid investment details", w)
      else
        match d w.calls with
        | some e =>
          (.error ("failed to get loan: " ++ ("failed to get loans from memcache: " ++ e)),
            { w with calls := w.calls + 1 })
        | none =>
          if l.LoanID = 0 then (.error "loan not found", { w with calls := w.calls + 1 })
          else (.error "loan is not in approved state", { w with calls := w.calls + 1 }) := by
  have hidx : LoanMap.index w.loans loanID = l := LoanMap.index_of_find? hstored
  unfold Usecase.Invest
  rw [Repository.GetLoan_eq, hidx]
  by_cases hv : inv.InvestorID = 0 ∨ inv.InvestedAmount ≤ 0
  · rw [if_pos hv, if_pos hv]
  · rw [if_neg hv, if_neg hv]
    cases h0 : d w.calls with
    | some e => rfl
    | none =>
      by_cases hz : l.LoanID = 0
      · simp only [if_pos hz]
      · simp only [if_neg hz, if_pos hstate]

/-- Every run of `Approve` sends nothing, and either fails and leaves the cache as it was, or
succeeds: then the record read under `loanID` had a non-zero identifier and was `Proposed`, and
the cache holds the map with `approvedLoan` assigned under that record's identifier. -/
theorem Usecase.Approve_cases {d : Drivers} {now : Time} {loanID : Int} {url : String}
    {vid : Int} {w w' : World} {r : Except String Unit}
    (h : Usecase.Approve d now loanID url vid w = (r, w')) :
    w'.sent = w.sent ∧
      ((r ≠ .ok () ∧ w'.cache = w.cache) ∨
        (r = .ok () ∧ url ≠ "" ∧ vid ≠ 0 ∧
          (LoanMap.index w.loans loanID).LoanID ≠ 0 ∧
          (LoanMap.index w.loans loanID).State = StateEnumProposed ∧
          w'.cache = some (LoanMap.assign w.loans (LoanMap.index w.loans loanID).LoanID
            (approvedLoan (LoanMap.index w.loans loanID) now url vid)))) := by
  unfold Usecase.Approve at h
  rw [Repository.GetLoan_eq] at h
  by_cases hv : url = "" ∨ vid = 0
  · rw [if_pos hv] at h
    obtain ⟨rfl, rfl⟩ := Prod.mk.inj h
    exact ⟨rfl, Or.inl ⟨by simp, rfl⟩⟩
  · rw [if_neg hv] at h
    push_neg at hv
    cases h0 : d w.calls with
    | some e =>
      simp only [h0] at h
      obtain ⟨rfl, rfl⟩ := Prod.mk.inj h
      exact ⟨rfl, Or.inl ⟨by simp, rfl⟩⟩
    | none =>
      simp only [h0] at h
      generalize LoanMap.index w.loans loanID = l at h ⊢
      by_cases hz : l.LoanID = 0
      · rw [if_pos hz] at h
        obtain ⟨rfl, rfl⟩ := Prod.mk.inj h
        exact ⟨rfl, Or.inl ⟨by simp, rfl⟩⟩
      · rw [if_neg hz] at h
        by_cases hs : l.State = StateEnumProposed
        · rw [if_neg (not_not.mpr hs)] at h
          rcases hu : Repository.UpdateLoan d
            { l with ApprovalInfo := ⟨url, vid, now⟩, State := StateEnumApproved }
            { w with calls := w.calls + 1 } with ⟨ru, wu⟩
          rw [hu] at h
          obtain ⟨hus, huc⟩ := Repository.UpdateLoan_cases hu
          cases ru with
          | error e =>
            simp only at h
            obtain ⟨rfl, rfl⟩ := Prod.mk.inj h
            rcases huc with ⟨_, hc⟩ | ⟨hc, _⟩
            · exact ⟨by simpa using hus, Or.inl ⟨by simp, by simpa using hc⟩⟩
            · simp at hc
          | ok u =>
            simp only at h
            obtain ⟨rfl, rfl⟩ := Prod.mk.inj h
            rcases huc with ⟨hc, _⟩ | ⟨_, hc⟩
            · simp at hc
            · refine ⟨by simpa using hus, Or.inr ⟨rfl, hv.1, hv.2, hz, hs, ?_⟩⟩
              rw [hc]; simp [approvedLoan, World.loans]
        · rw [if_pos hs] at h
          obtain ⟨rfl, rfl⟩ := Prod.mk.inj h
          exact ⟨rfl, Or.inl ⟨by simp, rfl⟩⟩

/-- Every run of `Disburse` sends nothing, and either fails and leaves the cache as it was, or
succeeds: then the record read under `loanID` had a non-zero identifier and was `Invested`, and
the cache holds the map with `disbursedLoan` assigned under that record's identifier. -/
theorem Usecase.Disburse_cases {d : Drivers} {now : Time} {loanID : Int} {url : String}
    {oid : Int} {w w' : World} {r : Except String Unit}
    (h : Usecase.Disburse d now loanID url oid w = (r, w')) :
    w'.sent = w.sent ∧
      ((r ≠ .ok () ∧ w'.cache = w.cache) ∨
        (r = .ok () ∧ url ≠ "" ∧ oid ≠ 0 ∧
          (LoanMap.index w.loans loanID).LoanID ≠ 0 ∧
          (LoanMap.index w.loans loanID).State = StateEnumInvested ∧
          w'.cache = some (LoanMap.assign w.loans (LoanMap.index w.loans loanID).LoanID
            (disbursedLoan (LoanMap.index w.loans loanID) now url oid)))) := by
  unfold Usecase.Disburse at h
  rw [Repository.GetLoan_eq] at h
  by_cases hv : url = "" ∨ oid = 0
  · rw [if_pos hv] at h
    obtain ⟨rfl, rfl⟩ := Prod.mk.inj h
    exact ⟨rfl, Or.inl ⟨by simp, rfl⟩⟩
  · rw [if_neg hv] at h
    push_neg at hv
    cases h0 : d w.calls with
    | some e =>
      simp only [h0] at h
      obtain ⟨rfl, rfl⟩ := Prod.mk.inj h
      exact ⟨rfl, Or.inl ⟨by simp, rfl⟩⟩
    | none =>
      simp only [h0] at h
      generalize LoanMap.index w.loans loanID = l at h ⊢
      by_cases hz : l.LoanID = 0
      · rw [if_pos hz] at h
        obtain ⟨rfl, rfl⟩ := Prod.mk.inj h
        exact ⟨rfl, Or.inl ⟨by simp, rfl⟩⟩
      · rw [if_neg hz] at h
        by_cases hs : l.State = StateEnumInvested
        · rw [if_neg (not_not.mpr hs)] at h
          rcases hu : Repository.UpdateLoan d
            { l with State := StateEnumDisbursed, DisbursementInfo := ⟨url, oid, now⟩ }
            { w with calls := w.calls + 1 } with ⟨ru, wu⟩
          rw [hu] at h
          obtain ⟨hus, huc⟩ := Repository.UpdateLoan_cases hu
          cases ru with
          | error e =>
            simp only at h
            obtain ⟨rfl, rfl⟩ := Prod.mk.inj h
            rcases huc with ⟨_, hc⟩ | ⟨hc, _⟩
            · exact ⟨by simpa using hus, Or.inl ⟨by simp, by simpa using hc⟩⟩
            · simp at hc
          | ok u =>
            simp only at h
            obtain ⟨rfl, rfl⟩ := Prod.mk.inj h
            rcases huc with ⟨hc, _⟩ | ⟨_, hc⟩
            · simp at hc
            · refine ⟨by simpa using hus, Or.inr ⟨rfl, hv.1, hv.2, hz, hs, ?_⟩⟩
              rw [hc]; simp [disbursedLoan, World.loans]
        · rw [if_pos hs] at h
          obtain ⟨rfl, rfl⟩ := Prod.mk.inj h
          exact ⟨rfl, Or.inl ⟨by simp, rfl⟩⟩

/-- The record `CreateLoan` hands to `InsertLoan` is `createdLoan`. -/
theorem createdLoan_eq (now : Time) (borrowerID : Int) (principalAmount rate roi : ℚ) :
    ({ Loan.zeroValue with
        LoanID := now.UnixMilli
        BorrowerID := borrowerID
        PrincipalAmount := principalAmount
        Rate := rate
        ROI := roi
        State := StateEnumProposed } : Loan)
      = createdLoan now borrowerID principalAmount rate roi := rfl

/-- Every run of `CreateLoan` either leaves the cache as it was, or the cache holds the map with
`createdLoan` assigned under the identifier read from the clock; the latter whenever it
succeeds. -/
theorem Usecase.CreateLoan_cases {d : Drivers} {now : Time} {b : Int} {p rate roi : ℚ}
    {w w' : World} {r : Except String Unit}
    (h : Usecase.CreateLoan d now b p rate roi w = (r, w')) :
    (r ≠ .ok () ∧ w'.cache = w.cache) ∨
      w'.cache = some (LoanMap.assign w.loans now.UnixMilli (createdLoan now b p rate roi)) := by
  unfold Usecase.CreateLoan at h
  simp only [createdLoan_eq] at h
  rcases hi : Repository.InsertLoan d (createdLoan now b p rate roi) w with ⟨ri, wi⟩
  rw [hi] at h
  obtain ⟨_, hic⟩ := Repository.InsertLoan_cases hi
  cases ri with
  | error e =>
    simp only at h
    obtain ⟨rfl, rfl⟩ := Prod.mk.inj h
    rcases hic with ⟨_, hc⟩ | ⟨hc, _⟩
    · exact Or.inl ⟨by simp, hc⟩
    · simp at hc
  | ok u =>
    simp only at h
    rcases hic with ⟨hc, _⟩ | ⟨_, hc⟩
    · simp at hc
    · have hid : (createdLoan now b p rate roi).LoanID = now.UnixMilli := rfl
      rw [hid] at hc
      simp only [Repository.GenerateAgreementLetter, NSQ.Send] at h
      cases hg : d wi.calls with
      | some e =>
        simp only [hg] at h
        obtain ⟨rfl, rfl⟩ := Prod.mk.inj h
        exact Or.inr hc
      | none =>
        simp only [hg] at h
        obtain ⟨rfl, rfl⟩ := Prod.mk.inj h
        exact Or.inr hc

/-- The three read operations leave cache and queue as they were. -/
theorem Usecase.reads_frame (d : Drivers) (loanID : Int) (w : World) :
    ((Usecase.GetLoans d w).2.cache = w.cache ∧ (Usecase.GetLoans d w).2.sent = w.sent) ∧
    ((Usecase.GetLoan d loanID w).2.cache = w.cache ∧
      (Usecase.GetLoan d loanID w).2.sent = w.sent) ∧
    ((Usecase.AdminViewLoans d w).2.cache = w.cache ∧
      (Usecase.AdminViewLoans d w).2.sent = w.sent) := by
  unfold Usecase.GetLoans Usecase.GetLoan Usecase.AdminViewLoans
  rw [Repository.GetLoans_eq, Repository.GetLoan_eq]
  cases d w.calls with
  | some e => exact ⟨⟨rfl, rfl⟩, ⟨rfl, rfl⟩, ⟨rfl, rfl⟩⟩
  | none =>
    refine ⟨⟨rfl, rfl⟩, ?_, ⟨rfl, rfl⟩⟩
    by_cases hz : (LoanMap.index w.loans loanID).LoanID = 0
    · simp [hz]
    · simp [hz]


/-! ## The funding invariant along executions -/

theorem World.All_of_cache_eq {P : Loan → Prop} {w w' : World} (hc : w'.cache = w.cache)
    (h : w.All P) : w'.All P := by
  intro k l hl
  apply h k l
  simpa [World.loan?, World.loans, hc] using hl

theorem World.All_assign {P : Loan → Prop} {w w' : World} {k : Int} {v : Loan}
    (hc : w'.cache = some (LoanMap.assign w.loans k v)) (h : w.All P) (hv : P v) :
    w'.All P := by
  intro j l hl
  have hl' : LoanMap.find? (LoanMap.assign w.loans k v) j = some l := by
    simpa [World.loan?, World.loans, hc] using hl
  by_cases hj : j = k
  · subst hj
    rw [LoanMap.find?_assign_self] at hl'
    exact (Option.some.inj hl') ▸ hv
  · rw [LoanMap.find?_assign_of_ne _ _ _ _ hj] at hl'
    exact h j l hl'

theorem World.All_index {P : Loan → Prop} {w : World} {k : Int} (h : w.All P)
    (hz : (LoanMap.index w.loans k).LoanID ≠ 0) : P (LoanMap.index w.loans k) :=
  h k _ (LoanMap.find?_of_index_ne_zero hz)

theorem runningTotal_nil : runningTotal [] = .finite 0 := rfl

theorem Loan.Sound_of_no_investments {l : Loan} (hp : 0 < l.PrincipalAmount)
    (he : l.Investments = [])
    (hs : l.State = StateEnumProposed ∨ l.State = StateEnumApproved) : l.Sound := by
  have hne : ¬ (0 : ℚ) = l.PrincipalAmount := ne_of_lt hp
  refine ⟨hp, ?_, fun _ => he, ?_⟩
  · rw [he, runningTotal_nil]
    simp [Float64.le, Float64.lt, hp]
  · rw [he, runningTotal_nil]
    rcases hs with hs | hs <;> simp [hs, Float64.eq, hne]

theorem Loan.Sound_created (now : Time) (b : Int) (p rate roi : ℚ) (hp : 0 < p) :
    (createdLoan now b p rate roi).Sound :=
  Loan.Sound_of_no_investments hp rfl (Or.inl rfl)

theorem Loan.Sound_approved {l : Loan} (now : Time) (url : String) (vid : Int)
    (h : l.Sound) (hs : l.State = StateEnumProposed) : (approvedLoan l now url vid).Sound :=
  Loan.Sound_of_no_investments h.1 (h.2.2.1 hs) (Or.inr rfl)

theorem Loan.Sound_invested {l : Loan} (inv : Investment) (h : l.Sound)
    (hs : l.State = StateEnumApproved)
    (hgt : Float64.gt (totalInvested inv.InvestedAmount l.Investments)
      (.finite l.PrincipalAmount) = false) :
    (investedLoan l inv).Sound := by
  obtain ⟨hp, _, _, _⟩ := h
  have hle := Float64.le_of_gt_eq_false (totalInvested_ne_nan inv.InvestedAmount l.Investments)
    hgt
  unfold investedLoan
  by_cases heq : Float64.eq (totalInvested inv.InvestedAmount l.Investments)
      (.finite l.PrincipalAmount) = true
  · rw [if_pos heq]
    refine ⟨hp, ?_, ?_, ?_⟩
    · simpa [runningTotal_append] using hle
    · simp
    · simpa [runningTotal_append] using heq
  · rw [if_neg heq]
    refine ⟨hp, ?_, ?_, ?_⟩
    · simpa [runningTotal_append] using hle
    · simp [hs]
    · simpa [runningTotal_append, hs] using heq

theorem Loan.Sound_disbursed {l : Loan} (now : Time) (url : String) (oid : Int)
    (h : l.Sound) (hs : l.State = StateEnumInvested) : (disbursedLoan l now url oid).Sound := by
  obtain ⟨hp, hle, _, hiff⟩ := h
  have hsum := hiff.mp (Or.inl hs)
  refine ⟨hp, hle, ?_, ?_⟩
  · simp [disbursedLoan]
  · simpa [disbursedLoan] using hsum

/-- One call keeps every stored record sound, provided a created loan has a positive
principal. -/
theorem Call.run_sound (d : Drivers) (c : Call) (w : World) (hc : c.PositivePrincipal)
    (h : w.All Loan.Sound) : (c.run d w).All Loan.Sound := by
  cases c with
  | CreateLoan now b p rate roi =>
    rcases Usecase.CreateLoan_cases (Prod.mk.eta (p := Usecase.CreateLoan d now b p rate roi w)).symm
      with ⟨_, hcache⟩ | hcache
    · exact World.All_of_cache_eq hcache h
    · exact World.All_assign hcache h (Loan.Sound_created now b p rate roi hc)
  | GetLoans => exact World.All_of_cache_eq (Usecase.reads_frame d 0 w).1.1 h
  | GetLoan loanID => exact World.All_of_cache_eq (Usecase.reads_frame d loanID w).2.1.1 h
  | AdminViewLoans => exact World.All_of_cache_eq (Usecase.reads_frame d 0 w).2.2.1 h
  | Approve now loanID url vid =>
    rcases (Usecase.Approve_cases
      (Prod.mk.eta (p := Usecase.Approve d now loanID url vid w)).symm).2
      with ⟨_, hcache⟩ | ⟨_, _, _, hz, hs, hcache⟩
    · exact World.All_of_cache_eq hcache h
    · exact World.All_assign hcache h (Loan.Sound_approved now url vid (World.All_index h hz) hs)
  | Invest loanID inv =>
    rcases Usecase.Invest_cases (Prod.mk.eta (p := Usecase.Invest d loanID inv w)).symm
      with ⟨_, hcache⟩ | ⟨_, _, _, hz, hs, hle, hcache, _⟩
    · exact World.All_of_cache_eq hcache h
    · exact World.All_assign hcache h (Loan.Sound_invested inv (World.All_index h hz) hs hle)
  | Disburse now loanID url oid =>
    rcases (Usecase.Disburse_cases
      (Prod.mk.eta (p := Usecase.Disburse d now loanID url oid w)).symm).2
      with ⟨_, hcache⟩ | ⟨_, _, _, hz, hs, hcache⟩
    · exact World.All_of_cache_eq hcache h
    · exact World.All_assign hcache h
        (Loan.Sound_disbursed now url oid (World.All_index h hz) hs)

theorem runCalls_sound (d : Drivers) (calls : List Call) :
    ∀ w : World, (∀ c ∈ calls, c.PositivePrincipal) → w.All Loan.Sound →
      (runCalls d calls w).All Loan.Sound := by
  induction calls with
  | nil => intro w _ h; exact h
  | cons c cs ih =>
    intro w hpos h
    exact ih _ (fun c' hc' => hpos c' (List.mem_cons_of_mem _ hc'))
      (Call.run_sound d c w (hpos c (List.mem_cons_self _ _)) h)

theorem World.initial_all (P : Loan → Prop) : World.initial.All P := by
  intro k l hl
  simp [World.loan?, World.loans, World.initial, LoanMap.find?] at hl


/-! ## The state of a stored loan along one call -/

theorem World.loan?_of_cache_eq {w w' : World} (hc : w'.cache = w.cache) (k : Int) :
    w'.loan? k = w.loan? k := by
  simp [World.loan?, World.loans, hc]

theorem World.loan?_of_assign {w w' : World} {j : Int} {v : Loan}
    (hc : w'.cache = some (LoanMap.assign w.loans j v)) (k : Int) :
    w'.loan? k = if k = j then some v else w.loan? k := by
  by_cases hk : k = j
  · subst hk
    simp [World.loan?, World.loans, hc, LoanMap.find?_assign_self]
  · rw [if_neg hk]
    simp only [World.loan?, World.loans, hc]
    exact LoanMap.find?_assign_of_ne _ _ _ _ hk

theorem World.Keyed_index {w : World} {k : Int} (h : w.Keyed)
    (hz : (LoanMap.index w.loans k).LoanID ≠ 0) : (LoanMap.index w.loans k).LoanID = k :=
  h k _ (LoanMap.find?_of_index_ne_zero hz)

/-- Every call keeps the records stored under their own identifiers. -/
theorem Call.run_keyed (d : Drivers) (c : Call) (w : World) (h : w.Keyed) :
    (c.run d w).Keyed := by
  have frame : ∀ w' : World, w'.cache = w.cache → w'.Keyed := by
    intro w' hc k l hl
    rw [World.loan?_of_cache_eq hc] at hl
    exact h k l hl
  have assign : ∀ (w' : World) (j : Int) (v : Loan),
      w'.cache = some (LoanMap.assign w.loans j v) → v.LoanID = j → w'.Keyed := by
    intro w' j v hc hv k l hl
    rw [World.loan?_of_assign hc] at hl
    by_cases hk : k = j
    · rw [if_pos hk] at hl
      rw [← Option.some.inj hl, hv, hk]
    · rw [if_neg hk] at hl
      exact h k l hl
  cases c with
  | CreateLoan now b p rate roi =>
    rcases Usecase.CreateLoan_cases (Prod.mk.eta (p := Usecase.CreateLoan d now b p rate roi w)).symm
      with ⟨_, hcache⟩ | hcache
    · exact frame _ hcache
    · exact assign _ _ _ hcache rfl
  | GetLoans => exact frame _ (Usecase.reads_frame d 0 w).1.1
  | GetLoan loanID => exact frame _ (Usecase.reads_frame d loanID w).2.1.1
  | AdminViewLoans => exact frame _ (Usecase.reads_frame d 0 w).2.2.1
  | Approve now loanID url vid =>
    rcases (Usecase.Approve_cases
      (Prod.mk.eta (p := Usecase.Approve d now loanID url vid w)).symm).2
      with ⟨_, hcache⟩ | ⟨_, _, _, _, _, hcache⟩
    · exact frame _ hcache
    · exact assign _ _ _ hcache rfl
  | Invest loanID inv =>
    rcases Usecase.Invest_cases (Prod.mk.eta (p := Usecase.Invest d loanID inv w)).symm
      with ⟨_, hcache⟩ | ⟨_, _, _, _, _, _, hcache, _⟩
    · exact frame _ hcache
    · refine assign _ _ _ hcache ?_
      unfold investedLoan
      split <;> rfl
  | Disburse now loanID url oid =>
    rcases (Usecase.Disburse_cases
      (Prod.mk.eta (p := Usecase.Disburse d now loanID url oid w)).symm).2
      with ⟨_, hcache⟩ | ⟨_, _, _, _, _, hcache⟩
    · exact frame _ hcache
    · exact assign _ _ _ hcache rfl

/-- Along any call other than a `CreateLoan` whose clock reading gives an identifier already in
the store, a stored loan stays stored and its state is unchanged or moves one step forward,
by the one operation that owns the step, called on that loan. -/
theorem Call.run_state_forward (d : Drivers) (c : Call) (w : World) (hkeyed : w.Keyed)
    (hfresh : ∀ now b p rate roi, c = .CreateLoan now b p rate roi →
      w.loan? now.UnixMilli = none)
    (k : Int) (l : Loan) (hl : w.loan? k = some l) :
    ∃ l', (c.run d w).loan? k = some l' ∧
      (l'.State = l.State ∨
        (l.State = StateEnumProposed ∧ l'.State = StateEnumApproved ∧
          ∃ now url vid, c = .Approve now k url vid) ∨
        (l.State = StateEnumApproved ∧ l'.State = StateEnumInvested ∧
          ∃ inv, c = .Invest k inv) ∨
        (l.State = StateEnumInvested ∧ l'.State = StateEnumDisbursed ∧
          ∃ now url oid, c = .Disburse now k url oid)) := by
  have frame : ∀ w' : World, w'.cache = w.cache →
      ∃ l', w'.loan? k = some l' ∧ l'.State = l.State := by
    intro w' hc
    exact ⟨l, by rw [World.loan?_of_cache_eq hc, hl], rfl⟩
  cases c with
  | CreateLoan now b p rate roi =>
    rcases Usecase.CreateLoan_cases (Prod.mk.eta (p := Usecase.CreateLoan d now b p rate roi w)).symm
      with ⟨_, hcache⟩ | hcache
    · obtain ⟨l', h1, h2⟩ := frame _ hcache
      exact ⟨l', h1, Or.inl h2⟩
    · have hne : k ≠ now.UnixMilli := by
        intro hk
        have := hfresh now b p rate roi rfl
        rw [← hk, hl] at this
        simp at this
      refine ⟨l, ?_, Or.inl rfl⟩
      show World.loan? (Usecase.CreateLoan d now b p rate roi w).2 k = some l
      rw [World.loan?_of_assign hcache, if_neg hne, hl]
  | GetLoans =>
    obtain ⟨l', h1, h2⟩ := frame _ (Usecase.reads_frame d 0 w).1.1
    exact ⟨l', h1, Or.inl h2⟩
  | GetLoan loanID =>
    obtain ⟨l', h1, h2⟩ := frame _ (Usecase.reads_frame d loanID w).2.1.1
    exact ⟨l', h1, Or.inl h2⟩
  | AdminViewLoans =>
    obtain ⟨l', h1, h2⟩ := frame _ (Usecase.reads_frame d 0 w).2.2.1
    exact ⟨l', h1, Or.inl h2⟩
  | Approve now loanID url vid =>
    rcases (Usecase.Approve_cases
      (Prod.mk.eta (p := Usecase.Approve d now loanID url vid w)).symm).2
      with ⟨_, hcache⟩ | ⟨_, _, _, hz, hs, hcache⟩
    · obtain ⟨l', h1, h2⟩ := frame _ hcache
      exact ⟨l', h1, Or.inl h2⟩
    · rw [World.Keyed_index hkeyed hz] at hcache
      by_cases hk : k = loanID
      · subst hk
        have hidx : LoanMap.index w.loans k = l := LoanMap.index_of_find? hl
        rw [hidx] at hcache hs
        refine ⟨approvedLoan l now url vid, ?_, Or.inr (Or.inl ⟨hs, rfl, now, url, vid, rfl⟩)⟩
        show World.loan? (Usecase.Approve d now k url vid w).2 k = _
        rw [World.loan?_of_assign hcache, if_pos rfl]
      · refine ⟨l, ?_, Or.inl rfl⟩
        show World.loan? (Usecase.Approve d now loanID url vid w).2 k = _
        rw [World.loan?_of_assign hcache, if_neg hk, hl]
  | Invest loanID inv =>
    rcases Usecase.Invest_cases (Prod.mk.eta (p := Usecase.Invest d loanID inv w)).symm
      with ⟨_, hcache⟩ | ⟨_, _, _, hz, hs, _, hcache, _⟩
    · obtain ⟨l', h1, h2⟩ := frame _ hcache
      exact ⟨l', h1, Or.inl h2⟩
    · rw [World.Keyed_index hkeyed hz] at hcache
      by_cases hk : k = loanID
      · subst hk
        have hidx : LoanMap.index w.loans k = l := LoanMap.index_of_find? hl
        rw [hidx] at hcache hs
        refine ⟨investedLoan l inv, ?_, ?_⟩
        · show World.loan? (Usecase.Invest d k inv w).2 k = _
          rw [World.loan?_of_assign hcache, if_pos rfl]
        · unfold investedLoan
          split
          · exact Or.inr (Or.inr (Or.inl ⟨hs, rfl, inv, rfl⟩))
          · exact Or.inl rfl
      · refine ⟨l, ?_, Or.inl rfl⟩
        show World.loan? (Usecase.Invest d loanID inv w).2 k = _
        rw [World.loan?_of_assign hcache, if_neg hk, hl]
  | Disburse now loanID url oid =>
    rcases (Usecase.Disburse_cases
      (Prod.mk.eta (p := Usecase.Disburse d now loanID url oid w)).symm).2
      with ⟨_, hcache⟩ | ⟨_, _, _, hz, hs, hcache⟩
    · obtain ⟨l', h1, h2⟩ := frame _ hcache
      exact ⟨l', h1, Or.inl h2⟩
    · rw [World.Keyed_index hkeyed hz] at hcache
      by_cases hk : k = loanID
      · subst hk
        have hidx : LoanMap.index w.loans k = l := LoanMap.index_of_find? hl
        rw [hidx] at hcache hs
        refine ⟨disbursedLoan l now url oid, ?_,
          Or.inr (Or.inr (Or.inr ⟨hs, rfl, now, url, oid, rfl⟩))⟩
        show World.loan? (Usecase.Disburse d now k url oid w).2 k = _
        rw [World.loan?_of_assign hcache, if_pos rfl]
      · refine ⟨l, ?_, Or.inl rfl⟩
        show World.loan? (Usecase.Disburse d now loanID url oid w).2 k = _
        rw [World.loan?_of_assign hcache, if_neg hk, hl]

/-! ## Identifiers read from the clock -/

theorem LoanMap.length_assign (m : LoanMap) (k : Int) (v : Loan) :
    (LoanMap.assign m k v).length =
      match LoanMap.find? m k with
      | some _ => m.length
      | none => m.length + 1 := by
  induction m with
  | nil => simp [LoanMap.assign, LoanMap.find?]
  | cons p rest ih =>
    obtain ⟨k', v'⟩ := p
    by_cases h : k' = k
    · simp [LoanMap.assign, LoanMap.find?, h]
    · simp only [LoanMap.assign, LoanMap.find?, if_neg h, List.length_cons, ih]
      cases LoanMap.find? rest k <;> rfl

/-- A successful `CreateLoan` stores `createdLoan` under the identifier read from the clock and
leaves the records under all other identifiers as they were; the number of stored loans grows
by one when that identifier was not in the store, and stays the same, the old record being
replaced, when it was. -/
theorem Usecase.CreateLoan_ok {d : Drivers} {now : Time} {b : Int} {p rate roi : ℚ}
    {w w' : World} (hok : Usecase.CreateLoan d now b p rate roi w = (.ok (), w')) :
    w'.loan? now.UnixMilli = some (createdLoan now b p rate roi) ∧
      (∀ k, k ≠ now.UnixMilli → w'.loan? k = w.loan? k) ∧
      (w.loan? now.UnixMilli = none → w'.loans.length = w.loans.length + 1) ∧
      (∀ l, w.loan? now.UnixMilli = some l → w'.loans.length = w.loans.length) := by
  rcases Usecase.CreateLoan_cases hok with ⟨hne, _⟩ | hcache
  · exact absurd rfl hne
  · have hlen : w'.loans.length
        = (LoanMap.assign w.loans now.UnixMilli (createdLoan now b p rate roi)).length := by
      simp [World.loans, hcache]
    refine ⟨?_, ?_, ?_, ?_⟩
    · rw [World.loan?_of_assign hcache, if_pos rfl]
    · intro k hk
      rw [World.loan?_of_assign hcache, if_neg hk]
    · intro hnone
      rw [hlen, LoanMap.length_assign]
      simp only [World.loan?] at hnone
      rw [hnone]
    · intro l hsome
      rw [hlen, LoanMap.length_assign]
      simp only [World.loan?] at hsome
      rw [hsome]

/-! ## Identifiers that were never created -/

theorem World.initial_keyed : World.initial.Keyed := by
  intro k l hl
  simp [World.loan?, World.loans, World.initial, LoanMap.find?] at hl

theorem runCalls_keyed (d : Drivers) (calls : List Call) :
    ∀ w : World, w.Keyed → (runCalls d calls w).Keyed := by
  induction calls with
  | nil => intro w h; exact h
  | cons c cs ih => intro w h; exact ih _ (Call.run_keyed d c w h)

/-- A call that does not create a loan under `k` leaves `k` absent from a store keyed by
identifier. -/
theorem Call.run_loan?_none (d : Drivers) (c : Call) (w : World) (hkeyed : w.Keyed) (k : Int)
    (hnone : w.loan? k = none) (hc : ¬ c.Creates k) : (c.run d w).loan? k = none := by
  have frame : ∀ w' : World, w'.cache = w.cache → w'.loan? k = none := by
    intro w' hcache
    rw [World.loan?_of_cache_eq hcache, hnone]
  have assign : ∀ (w' : World) (loanID : Int) (v : Loan),
      (LoanMap.index w.loans loanID).LoanID ≠ 0 →
      w'.cache = some (LoanMap.assign w.loans (LoanMap.index w.loans loanID).LoanID v) →
      w'.loan? k = none := by
    intro w' loanID v hz hcache
    have hstored := LoanMap.find?_of_index_ne_zero hz
    rw [World.Keyed_index hkeyed hz] at hcache
    have hne : k ≠ loanID := by
      intro hk
      rw [hk] at hnone
      simp only [World.loan?] at hnone
      rw [hnone] at hstored
      simp at hstored
    rw [World.loan?_of_assign hcache, if_neg hne, hnone]
  cases c with
  | CreateLoan now b p rate roi =>
    rcases Usecase.CreateLoan_cases (Prod.mk.eta (p := Usecase.CreateLoan d now b p rate roi w)).symm
      with ⟨_, hcache⟩ | hcache
    · exact frame _ hcache
    · have hne : k ≠ now.UnixMilli := fun hk => hc hk.symm
      show World.loan? (Usecase.CreateLoan d now b p rate roi w).2 k = none
      rw [World.loan?_of_assign hcache, if_neg hne, hnone]
  | GetLoans => exact frame _ (Usecase.reads_frame d 0 w).1.1
  | GetLoan loanID => exact frame _ (Usecase.reads_frame d loanID w).2.1.1
  | AdminViewLoans => exact frame _ (Usecase.reads_frame d 0 w).2.2.1
  | Approve now loanID url vid =>
    rcases (Usecase.Approve_cases
      (Prod.mk.eta (p := Usecase.Approve d now loanID url vid w)).symm).2
      with ⟨_, hcache⟩ | ⟨_, _, _, hz, _, hcache⟩
    · exact frame _ hcache
    · exact assign _ loanID _ hz hcache
  | Invest loanID inv =>
    rcases Usecase.Invest_cases (Prod.mk.eta (p := Usecase.Invest d loanID inv w)).symm
      with ⟨_, hcache⟩ | ⟨_, _, _, hz, _, _, hcache, _⟩
    · exact frame _ hcache
    · exact assign _ loanID _ hz hcache
  | Disburse now loanID url oid =>
    rcases (Usecase.Disburse_cases
      (Prod.mk.eta (p := Usecase.Disburse d now loanID url oid w)).symm).2
      with ⟨_, hcache⟩ | ⟨_, _, _, hz, _, hcache⟩
    · exact frame _ hcache
    · exact assign _ loanID _ hz hcache

theorem runCalls_loan?_none (d : Drivers) (calls : List Call) (k : Int) :
    ∀ w : World, w.Keyed → w.loan? k = none → (∀ c ∈ calls, ¬ c.Creates k) →
      (runCalls d calls w).loan? k = none := by
  induction calls with
  | nil => intro w _ h _; exact h
  | cons c cs ih =>
    intro w hkeyed hnone hnever
    exact ih _ (Call.run_keyed d c w hkeyed)
      (Call.run_loan?_none d c w hkeyed k hnone (hnever c (List.mem_cons_self _ _)))
      (fun c' hc' => hnever c' (List.mem_cons_of_mem _ hc'))

/-- The value of `GetLoan` when the store read succeeds. -/
theorem Usecase.GetLoan_eq_of_read (d : Drivers) (loanID : Int) (w : World)
    (hread : d w.calls = none) :
    Usecase.GetLoan d loanID w =
      if (LoanMap.index w.loans loanID).LoanID = 0 then
        (.error "loan not found", { w with calls := w.calls + 1 })
      else
        (.ok (LoanMap.index w.loans loanID).information, { w with calls := w.calls + 1 }) := by
  unfold Usecase.GetLoan
  rw [Repository.GetLoan_eq]
  simp only [hread]

/-! ## A failing dispatch -/

/-- When the dispatch number `j` of the loop is the first to fail, the loop stops there with
the error of that dispatch: the cache is untouched and exactly the messages of the first `j`
investments have been sent. -/
theorem publishAll_fail (d : Drivers) (loanID : Int) (investments : List Investment) :
    ∀ (w : World) (j : Nat) (e : String), j < investments.length →
      d (w.calls + j) = some e → (∀ i, i < j → d (w.calls + i) = none) →
      publishAll d loanID investments w =
        (.error ("failed to publish agreement letter: " ++ e),
          ⟨w.cache, w.sent ++ (investments.take j).map (emailMessage loanID),
            w.calls + j + 1⟩) := by
  induction investments with
  | nil => intro w j e hj; simp at hj
  | cons inv rest ih =>
    intro w j e hj hfail hbefore
    cases j with
    | zero =>
      have h0 : d w.calls = some e := by simpa using hfail
      simp [publishAll, Repository.Publish, NSQ.Send, h0]
    | succ j =>
      have h0 : d w.calls = none := by simpa using hbefore 0 (Nat.succ_pos j)
      have hj' : j < rest.length := by simpa using hj
      have hfail' : d (w.calls + 1 + j) = some e := by
        rw [← hfail]; congr 1; omega
      have hbefore' : ∀ i, i < j → d (w.calls + 1 + i) = none := by
        intro i hi
        rw [← hbefore (i + 1) (Nat.succ_lt_succ hi)]; congr 1; omega
      have hrec := ih
        { w with sent := w.sent ++ [⟨EmailAgreementLetterChannel, emailPayload loanID inv⟩],
                 calls := w.calls + 1 } j e hj' hfail' hbefore'
      simp only [publishAll, Repository.Publish, NSQ.Send, h0]
      rw [hrec]
      simp [emailMessage, Nat.add_assoc, Nat.add_comm 1 j]

/-- One call keeps a property of all stored records that the four record constructions of the
engine keep. -/
theorem Call.run_all (P : Loan → Prop) (d : Drivers) (c : Call) (w : World)
    (hC : ∀ now b p rate roi, P (createdLoan now b p rate roi))
    (hA : ∀ l now url vid, P l → l.State = StateEnumProposed → P (approvedLoan l now url vid))
    (hI : ∀ l inv, P l → l.State = StateEnumApproved → P (investedLoan l inv))
    (hD : ∀ l now url oid, P l → l.State = StateEnumInvested →
      P (disbursedLoan l now url oid))
    (h : w.All P) : (c.run d w).All P := by
  cases c with
  | CreateLoan now b p rate roi =>
    rcases Usecase.CreateLoan_cases (Prod.mk.eta (p := Usecase.CreateLoan d now b p rate roi w)).symm
      with ⟨_, hcache⟩ | hcache
    · exact World.All_of_cache_eq hcache h
    · exact World.All_assign hcache h (hC now b p rate roi)
  | GetLoans => exact World.All_of_cache_eq (Usecase.reads_frame d 0 w).1.1 h
  | GetLoan loanID => exact World.All_of_cache_eq (Usecase.reads_frame d loanID w).2.1.1 h
  | AdminViewLoans => exact World.All_of_cache_eq (Usecase.reads_frame d 0 w).2.2.1 h
  | Approve now loanID url vid =>
    rcases (Usecase.Approve_cases
      (Prod.mk.eta (p := Usecase.Approve d now loanID url vid w)).symm).2
      with ⟨_, hcache⟩ | ⟨_, _, _, hz, hs, hcache⟩
    · exact World.All_of_cache_eq hcache h
    · exact World.All_assign hcache h (hA _ now url vid (World.All_index h hz) hs)
  | Invest loanID inv =>
    rcases Usecase.Invest_cases (Prod.mk.eta (p := Usecase.Invest d loanID inv w)).symm
      with ⟨_, hcache⟩ | ⟨_, _, _, hz, hs, _, hcache, _⟩
    · exact World.All_of_cache_eq hcache h
    · exact World.All_assign hcache h (hI _ inv (World.All_index h hz) hs)
  | Disburse now loanID url oid =>
    rcases (Usecase.Disburse_cases
      (Prod.mk.eta (p := Usecase.Disburse d now loanID url oid w)).symm).2
      with ⟨_, hcache⟩ | ⟨_, _, _, hz, hs, hcache⟩
    · exact World.All_of_cache_eq hcache h
    · exact World.All_assign hcache h (hD _ now url oid (World.All_index h hz) hs)

/-- In every store reached from the empty one, a loan that is `Proposed` or `Approved` has an
empty agreement letter URL. -/
theorem runCalls_letterPending (d : Drivers) (calls : List Call) :
    ∀ w : World, w.All Loan.LetterPending → (runCalls d calls w).All Loan.LetterPending := by
  induction calls with
  | nil => intro w h; exact h
  | cons c cs ih =>
    intro w h
    apply ih
    apply Call.run_all Loan.LetterPending d c w _ _ _ _ h
    · intro now b p rate roi _; rfl
    · intro l now url vid hl hs _
      exact hl (Or.inl hs)
    · intro l inv hl hs
      unfold investedLoan
      split
      · intro hstate
        rcases hstate with h1 | h1 <;> simp at h1
      · intro _
        exact hl (Or.inr hs)
    · intro l now url oid _ _ hstate
      rcases hstate with h1 | h1 <;> simp [disbursedLoan] at h1


/-! ## Claims -/

/-- C1, evaluated where it fails: the store holds an `Approved` loan of principal `1e16` with
one investment of `1` (all amounts are binary64 values), and investor 2 invests `1e16`.  The
running total `1e16 + 1` rounds to `1e16`, which is not greater than the principal, so
`Invest` returns success and the record it persists has investments `1` and `1e16`, whose
exact sum `1e16 + 1` exceeds the principal. -/
theorem invest_rounded_total_persists_excess :
    (runCalls Drivers.working sampleLargeCalls World.initial).loan? 1700000000000
        = some sampleLarge ∧
    (Float64.round 1 = .finite 1 ∧
      Float64.round 10000000000000000 = .finite 10000000000000000) ∧
    totalInvested 10000000000000000 sampleLarge.Investments = .finite 10000000000000000 ∧
    (Usecase.Invest Drivers.working 1700000000000 ⟨2, 10000000000000000⟩
        (runCalls Drivers.working sampleLargeCalls World.initial)).1 = .ok () ∧
    (Usecase.Invest Drivers.working 1700000000000 ⟨2, 10000000000000000⟩
        (runCalls Drivers.working sampleLargeCalls World.initial)).2.loan? 1700000000000
      = some (sampleLargeFunded 10000000000000000) ∧
    sumInvested (sampleLargeFunded 10000000000000000).Investments = 10000000000000001 ∧
    ¬ sumInvested (sampleLargeFunded 10000000000000000).Investments
        ≤ (sampleLargeFunded 10000000000000000).PrincipalAmount := by
  decide!

/-- C2, evaluated where it fails.  First, the store holds an `Approved` loan of principal
`1e16 + 2` with investments `1e16` and `1`, and investor 3 invests `1`: amount plus existing
investments is exactly the principal, but the running total `(1 + 1e16) + 1` is `1e16` in
`float64`, so `Invest` succeeds and persists the loan still `Approved`, with an empty agreement
letter URL.  Second, the store holds an `Approved` loan of principal `1e16` with one investment
of `1`, and investor 2 invests `1e16 - 2`: amount plus existing investments is strictly less
than the principal, but the running total rounds to `1e16`, so `Invest` persists the loan as
`Invested`. -/
theorem invest_rounded_total_misses_exact_funding :
    ((runCalls Drivers.working sampleLargeTwoCalls World.initial).loan? 1700000000000
        = some sampleLargeTwo ∧
      (1 : ℚ) + sumInvested sampleLargeTwo.Investments = sampleLargeTwo.PrincipalAmount ∧
      totalInvested 1 sampleLargeTwo.Investments = .finite 10000000000000000 ∧
      (Usecase.Invest Drivers.working 1700000000000 ⟨3, 1⟩
        (runCalls Drivers.working sampleLargeTwoCalls World.initial)).1 = .ok () ∧
      (Usecase.Invest Drivers.working 1700000000000 ⟨3, 1⟩
        (runCalls Drivers.working sampleLargeTwoCalls World.initial)).2.loan? 1700000000000
        = some { sampleLargeTwo with
            Investments := sampleLargeTwo.Investments ++ [⟨3, 1⟩] } ∧
      sampleLargeTwo.State = StateEnumApproved ∧ sampleLargeTwo.AgreementLetterURL = "") ∧
    ((runCalls Drivers.working sampleLargeCalls World.initial).loan? 1700000000000
        = some sampleLarge ∧
      (9999999999999998 : ℚ) + sumInvested sampleLarge.Investments
        < sampleLarge.PrincipalAmount ∧
      totalInvested 9999999999999998 sampleLarge.Investments = .finite 10000000000000000 ∧
      (Usecase.Invest Drivers.working 1700000000000 ⟨2, 9999999999999998⟩
        (runCalls Drivers.working sampleLargeCalls World.initial)).2.loan? 1700000000000
        = some (sampleLargeFunded 9999999999999998) ∧
      (sampleLargeFunded 9999999999999998).State = StateEnumInvested) := by
  decide!

/-- C3, as stated, fails: on a stored `Proposed` loan, an investment with `investorID = 0` is
rejected with the validation error, not with the invalid-state-transition error. -/
theorem invest_not_approved_error_counterexample :
    sampleProposedWorld.loan? 2 = some sampleProposed ∧
      sampleProposed.State ≠ StateEnumApproved ∧
      (Usecase.Invest Drivers.working 2 ⟨0, 500⟩ sampleProposedWorld).1
        = .error "invalid investment details" ∧
      (Usecase.Invest Drivers.working 2 ⟨0, 500⟩ sampleProposedWorld).1
        ≠ .error "loan is not in approved state" := by
  decide

/-- C3, amended: for every stored loan whose state is not `Approved`, `Invest` always fails,
leaves the whole store unchanged and dispatches no notification; the error is the
invalid-state-transition error whenever the investment is valid, the store read succeeds and
the loan's identifier is non-zero, and the validation error whenever the investment is
invalid. -/
theorem invest_not_approved_rejected (d : Drivers) (loanID : Int) (l : Loan)
    (inv : Investment) (w : World)
    (hstored : w.loan? loanID = some l) (hstate : l.State ≠ StateEnumApproved) :
    (∃ e, (Usecase.Invest d loanID inv w).1 = .error e) ∧
      (Usecase.Invest d loanID inv w).2.cache = w.cache ∧
      (Usecase.Invest d loanID inv w).2.sent = w.sent ∧
      (inv.InvestorID ≠ 0 → 0 < inv.InvestedAmount → d w.calls = none → l.LoanID ≠ 0 →
        (Usecase.Invest d loanID inv w).1 = .error "loan is not in approved state") ∧
      (inv.InvestorID = 0 ∨ inv.InvestedAmount ≤ 0 →
        (Usecase.Invest d loanID inv w).1 = .error "invalid investment details") := by
  rw [Usecase.Invest_eq_of_not_approved d inv hstored hstate]
  by_cases hv : inv.InvestorID = 0 ∨ inv.InvestedAmount ≤ 0
  · rw [if_pos hv]
    refine ⟨⟨_, rfl⟩, rfl, rfl, fun h1 h2 => ?_, fun _ => rfl⟩
    rcases hv with h | h
    · exact absurd h h1
    · exact absurd h2 (not_lt.mpr h)
  · rw [if_neg hv]
    cases h0 : d w.calls with
    | some e => exact ⟨⟨_, rfl⟩, rfl, rfl, fun _ _ h => by simp at h, fun h => absurd h hv⟩
    | none =>
      by_cases hz : l.LoanID = 0
      · rw [if_pos hz]
        exact ⟨⟨_, rfl⟩, rfl, rfl, fun _ _ _ h => absurd hz h, fun h => absurd h hv⟩
      · rw [if_neg hz]
        exact ⟨⟨_, rfl⟩, rfl, rfl, fun _ _ _ _ => rfl, fun h => absurd h hv⟩

theorem invest_not_approved_rejected_witness :
    (∃ e, (Usecase.Invest Drivers.working 2 ⟨3, 500⟩ sampleProposedWorld).1 = .error e) ∧
      (Usecase.Invest Drivers.working 2 ⟨3, 500⟩ sampleProposedWorld).2.cache
        = sampleProposedWorld.cache ∧
      (Usecase.Invest Drivers.working 2 ⟨3, 500⟩ sampleProposedWorld).2.sent
        = sampleProposedWorld.sent ∧
      (Usecase.Invest Drivers.working 2 ⟨3, 500⟩ sampleProposedWorld).1
        = .error "loan is not in approved state" ∧
      (Usecase.Invest Drivers.working 2 ⟨0, 500⟩ sampleProposedWorld).1
        = .error "invalid investment details" :=
  have h := invest_not_approved_rejected Drivers.working 2 sampleProposed ⟨3, 500⟩
    sampleProposedWorld (by decide) (by decide)
  ⟨h.1, h.2.1, h.2.2.1, h.2.2.2.1 (by decide) (by decide) rfl (by decide),
    (invest_not_approved_rejected Drivers.working 2 sampleProposed ⟨0, 500⟩
      sampleProposedWorld (by decide) (by decide)).2.2.2.2 (Or.inl rfl)⟩

/-- C4, evaluated where it fails: the store holds an `Approved` loan of principal `1e16` with
one investment of `1`, and investor 2 makes the valid investment of `1e16`.  Amount plus
existing investments is `1e16 + 1`, strictly greater than the principal, but the running total
rounds to `1e16`, so `Invest` does not return the limit-exceeded error: it succeeds, persists
the loan as `Invested` with the investment appended, and dispatches two notifications. -/
theorem invest_rounded_total_accepts_over_principal :
    (runCalls Drivers.working sampleLargeCalls World.initial).loan? 1700000000000
        = some sampleLarge ∧
    sampleLarge.State = StateEnumApproved ∧
    (10000000000000000 : ℚ) + sumInvested sampleLarge.Investments
      > sampleLarge.PrincipalAmount ∧
    Usecase.Invest Drivers.working 1700000000000 ⟨2, 10000000000000000⟩
        (runCalls Drivers.working sampleLargeCalls World.initial)
      = (.ok (),
          ⟨some [(1700000000000, sampleLargeFunded 10000000000000000)],
            (runCalls Drivers.working sampleLargeCalls World.initial).sent ++
              [emailMessage 1700000000000 ⟨1, 1⟩,
               emailMessage 1700000000000 ⟨2, 10000000000000000⟩],
            (runCalls Drivers.working sampleLargeCalls World.initial).calls + 5⟩) ∧
    (Usecase.Invest Drivers.working 1700000000000 ⟨2, 10000000000000000⟩
        (runCalls Drivers.working sampleLargeCalls World.initial)).1
      ≠ .error "total invested amount exceeds principal amount" := by
  decide!

/-- C5: `Approve` called with an empty proof URL or a zero validator identifier, and `Disburse`
called with an empty letter URL or a zero officer identifier, fail with the validation error
and return the world exactly as it was: no driver call is made, so the store is neither read
nor written, whatever it holds. -/
theorem approve_disburse_validate_before_store (d : Drivers) (now : Time) (loanID : Int)
    (url : String) (id : Int) (w : World) (hbad : url = "" ∨ id = 0) :
    Usecase.Approve d now loanID url id w = (.error "approval info is incomplete", w) ∧
      Usecase.Disburse d now loanID url id w
        = (.error "agreement letter URL or field officer ID is empty", w) := by
  simp [Usecase.Approve, Usecase.Disburse, hbad]

theorem approve_disburse_validate_before_store_witness :
    Usecase.Approve Drivers.working ⟨0⟩ 1 "" 7 sampleWorld
        = (.error "approval info is incomplete", sampleWorld) ∧
      Usecase.Disburse Drivers.working ⟨0⟩ 1 "" 7 sampleWorld
        = (.error "agreement letter URL or field officer ID is empty", sampleWorld) :=
  approve_disburse_validate_before_store Drivers.working ⟨0⟩ 1 "" 7 sampleWorld
    (Or.inl rfl)

/-- C6, evaluated where it fails: a loan is created at `sampleNow` and approved, so the store
holds it in state `Approved`; a `CreateLoan` 400 microseconds later, within the same
millisecond, succeeds and stores its new record under the same identifier, so the loan
`1700000000000` is afterwards in state `Proposed`. -/
theorem createLoan_same_millisecond_reverts_state :
    ((runCalls Drivers.working sampleApproveCalls World.initial).loan? 1700000000000).map
        Loan.State = some StateEnumApproved ∧
    (Usecase.CreateLoan Drivers.working sampleNowLater 6 2000 0 0
        (runCalls Drivers.working sampleApproveCalls World.initial)).1 = .ok () ∧
    (((Call.CreateLoan sampleNowLater 6 2000 0 0).run Drivers.working
        (runCalls Drivers.working sampleApproveCalls World.initial)).loan? 1700000000000).map
        Loan.State = some StateEnumProposed := by
  decide

/-- C7, as stated, fails.  `CreateLoan` accepts any principal: after creating a loan of
principal `-1` the store holds a record whose (empty) investments sum to more than the
principal, and after creating a loan of principal `0` it holds a `Proposed` record whose
investments sum to exactly the principal.  And the total `Invest` compares is a rounded one:
with a positive principal of `1e16`, investing `1` and then `1e16` leaves an `Invested` record
whose investments sum to `1e16 + 1`, more than the principal. -/
theorem reachable_funding_invariant_counterexample :
    (∃ l, (runCalls Drivers.working [.CreateLoan sampleNow 5 (-1) 0 0] World.initial).loan?
          1700000000000 = some l ∧
        ¬ sumInvested l.Investments ≤ l.PrincipalAmount) ∧
    (∃ l, (runCalls Drivers.working [.CreateLoan sampleNow 5 0 0 0] World.initial).loan?
          1700000000000 = some l ∧
        l.State = StateEnumProposed ∧ sumInvested l.Investments = l.PrincipalAmount) ∧
    (∃ l, (runCalls Drivers.working
            (sampleLargeCalls ++ [.Invest 1700000000000 ⟨2, 10000000000000000⟩])
            World.initial).loan? 1700000000000 = some l ∧
        0 < l.PrincipalAmount ∧ l.State = StateEnumInvested ∧
        ¬ sumInvested l.Investments ≤ l.PrincipalAmount) := by
  refine ⟨⟨createdLoan sampleNow 5 (-1) 0 0, by decide, ?_⟩,
    ⟨createdLoan sampleNow 5 0 0 0, by decide, rfl, ?_⟩,
    ⟨sampleLargeFunded 10000000000000000, by decide!, by decide!, rfl, by decide!⟩⟩
  · norm_num [createdLoan, sumInvested]
  · norm_num [createdLoan, sumInvested]

/-- C7, amended: in every store state reached from the empty store by any sequence of engine
operations in which every `CreateLoan` is given a positive principal, whatever collaborator
calls fail, every stored loan has no investments while `Proposed`, and the running total of
its investments, as `Invest` computed it in `float64` when it accepted the last of them (zero
when there are none), is less than or equal to the principal and equals the principal if and
only if the loan is `Invested` or `Disbursed`. -/
theorem reachable_funding_invariant (d : Drivers) (calls : List Call)
    (hpos : ∀ c ∈ calls, c.PositivePrincipal) (loanID : Int) (l : Loan)
    (hstored : (runCalls d calls World.initial).loan? loanID = some l) :
    Float64.le (runningTotal l.Investments) (.finite l.PrincipalAmount) = true ∧
      (l.State = StateEnumProposed → l.Investments = []) ∧
      ((l.State = StateEnumInvested ∨ l.State = StateEnumDisbursed) ↔
        Float64.eq (runningTotal l.Investments) (.finite l.PrincipalAmount) = true) :=
  (runCalls_sound d calls World.initial hpos (World.initial_all _) loanID l hstored).2

theorem reachable_funding_invariant_witness :
    Float64.le (runningTotal sampleDisbursed.Investments)
        (.finite sampleDisbursed.PrincipalAmount) = true ∧
      (sampleDisbursed.State = StateEnumProposed → sampleDisbursed.Investments = []) ∧
      ((sampleDisbursed.State = StateEnumInvested ∨
          sampleDisbursed.State = StateEnumDisbursed) ↔
        Float64.eq (runningTotal sampleDisbursed.Investments)
          (.finite sampleDisbursed.PrincipalAmount) = true) :=
  reachable_funding_invariant Drivers.working sampleLifeCycle
    (by simp [sampleLifeCycle, Call.PositivePrincipal]) 1700000000000 sampleDisbursed
    (by decide!)

/-- C8, evaluated where it fails: a loan is created at `sampleNow`, and a second `CreateLoan`
400 microseconds later, within the same millisecond, succeeds with the same identifier
`1700000000000`: the identifier was already present, the store still holds one loan, and the
first borrower's record has been replaced by the second's. -/
theorem createLoan_same_millisecond_overwrites :
    (Usecase.CreateLoan Drivers.working sampleNow 5 1000 0 0 World.initial).1 = .ok () ∧
    ((Usecase.CreateLoan Drivers.working sampleNow 5 1000 0 0 World.initial).2.loan?
        1700000000000 = some (createdLoan sampleNow 5 1000 0 0) ∧
      (Usecase.CreateLoan Drivers.working sampleNow 5 1000 0 0 World.initial).2.loans.length
        = 1) ∧
    (Usecase.CreateLoan Drivers.working sampleNowLater 6 2000 0 0
        (Usecase.CreateLoan Drivers.working sampleNow 5 1000 0 0 World.initial).2).1 = .ok () ∧
    ((Usecase.CreateLoan Drivers.working sampleNowLater 6 2000 0 0
        (Usecase.CreateLoan Drivers.working sampleNow 5 1000 0 0 World.initial).2).2.loan?
        1700000000000 = some (createdLoan sampleNowLater 6 2000 0 0) ∧
      (Usecase.CreateLoan Drivers.working sampleNowLater 6 2000 0 0
        (Usecase.CreateLoan Drivers.working sampleNow 5 1000 0 0
          World.initial).2).2.loans.length = 1) ∧
    createdLoan sampleNowLater 6 2000 0 0 ≠ createdLoan sampleNow 5 1000 0 0 := by
  decide

/-- C9: when a successful `Invest` on a stored loan brings the running total (the amount of
the new investment, then the existing amounts added in order, in `float64`) to exactly the
principal, the queue receives, after what it held, exactly one `email_agreement_letter`
message per investment of the stored record, the new investment included and last, each with
the loan identifier, the investor identifier and the invested amount of that investment; when
the running total stays below the principal the queue receives nothing. -/
theorem invest_notifies_each_investor_when_funded (d : Drivers) (loanID : Int) (l : Loan)
    (inv : Investment) (w w' : World)
    (hstored : w.loan? loanID = some l) (hkey : l.LoanID = loanID)
    (hok : Usecase.Invest d loanID inv w = (.ok (), w')) :
    (Float64.eq (totalInvested inv.InvestedAmount l.Investments)
        (.finite l.PrincipalAmount) = true →
      ∃ l', w'.loan? loanID = some l' ∧ l'.Investments = l.Investments ++ [inv] ∧
        w'.sent = w.sent ++ l'.Investments.map (fun i =>
          ⟨"email_agreement_letter",
            [("invested_amount", .num i.InvestedAmount), ("investor_id", .int i.InvestorID),
              ("loan_id", .int loanID)]⟩)) ∧
    (Float64.lt (totalInvested inv.InvestedAmount l.Investments)
        (.finite l.PrincipalAmount) = true →
      w'.sent = w.sent) := by
  have hidx : LoanMap.index w.loans loanID = l := LoanMap.index_of_find? hstored
  rcases Usecase.Invest_cases hok with ⟨hne, _⟩ | ⟨_, _, _, _, _, _, hc, hs⟩
  · exact absurd rfl hne
  · rw [hidx] at hc hs
    rw [hkey] at hc hs
    constructor
    · intro heq
      refine ⟨investedLoan l inv, ?_, ?_, ?_⟩
      · simp [World.loan?, World.loans, hc, LoanMap.find?_assign_self]
      · simp [investedLoan, heq]
      · rw [hs, if_pos heq]
        simp [investedLoan, heq, emailMessage, emailPayload, EmailAgreementLetterChannel]
    · intro hlt
      have hne : ¬ Float64.eq (totalInvested inv.InvestedAmount l.Investments)
          (.finite l.PrincipalAmount) = true := by
        rw [Float64.eq_eq_false_of_lt hlt]
        simp
      rw [hs, if_neg hne]
      simp

theorem invest_notifies_each_investor_when_funded_witness :
    (∃ l', World.loan? (Usecase.Invest Drivers.working 1 ⟨2, 400⟩ sampleWorld).2 1 = some l' ∧
        l'.Investments = sampleApproved.Investments ++ [⟨2, 400⟩] ∧
        (Usecase.Invest Drivers.working 1 ⟨2, 400⟩ sampleWorld).2.sent =
          sampleWorld.sent ++ l'.Investments.map (fun i =>
            ⟨"email_agreement_letter",
              [("invested_amount", .num i.InvestedAmount), ("investor_id", .int i.InvestorID),
                ("loan_id", .int 1)]⟩)) ∧
    (Usecase.Invest Drivers.working 1 ⟨2, 100⟩ sampleWorld).2.sent = sampleWorld.sent :=
  ⟨(invest_notifies_each_investor_when_funded Drivers.working 1 sampleApproved ⟨2, 400⟩
      sampleWorld _ (by decide) (by decide) (by decide!)).1 (by decide!),
   (invest_notifies_each_investor_when_funded Drivers.working 1 sampleApproved ⟨2, 100⟩
      sampleWorld _ (by decide) (by decide) (by decide!)).2 (by decide!)⟩

/-- C10: `CreateLoan` builds the record with the four given values, the identifier read from
the clock, state `Proposed`, no investments, zero approval and disbursement info and an empty
agreement letter URL, and inserts it before it requests the letter.  If the insert fails,
`CreateLoan` returns an error, the store is unchanged and nothing is sent.  If the insert
succeeds, the store holds that record under its identifier; if the generation request then
fails, `CreateLoan` returns an error, nothing has been sent and the record is still stored, in
state `Proposed`; if it succeeds, `CreateLoan` succeeds and exactly one
`generate_agreement_letter` message with the loan identifier has been sent. -/
theorem createLoan_inserts_then_requests_letter (d : Drivers) (now : Time) (borrowerID : Int)
    (principalAmount rate roi : ℚ) (w : World) (loan : Loan)
    (hloan : loan =
      { LoanID := now.UnixMilli, BorrowerID := borrowerID, PrincipalAmount := principalAmount,
        Rate := rate, ROI := roi, State := StateEnumProposed,
        ApprovalInfo := ApprovalInfo.zeroValue, Investments := [],
        DisbursementInfo := DisbursementInfo.zeroValue, AgreementLetterURL := "" }) :
    (∀ e w1, Repository.InsertLoan d loan w = (.error e, w1) →
      Usecase.CreateLoan d now borrowerID principalAmount rate roi w
          = (.error ("failed to insert loan: " ++ e), w1) ∧
        w1.cache = w.cache ∧ w1.sent = w.sent) ∧
    (∀ w1, Repository.InsertLoan d loan w = (.ok (), w1) →
      (w1.loan? now.UnixMilli = some loan ∧ w1.sent = w.sent) ∧
      (∀ e w2, Repository.GenerateAgreementLetter d now.UnixMilli w1 = (.error e, w2) →
        Usecase.CreateLoan d now borrowerID principalAmount rate roi w
            = (.error ("failed to generate agreement letter: " ++ e), w2) ∧
          w2.loan? now.UnixMilli = some loan ∧ w2.sent = w.sent) ∧
      (∀ w2, Repository.GenerateAgreementLetter d now.UnixMilli w1 = (.ok (), w2) →
        Usecase.CreateLoan d now borrowerID principalAmount rate roi w = (.ok (), w2) ∧
          w2.loan? now.UnixMilli = some loan ∧
          w2.sent = w.sent ++
            [⟨"generate_agreement_letter", [("loan_id", .int now.UnixMilli)]⟩])) := by
  have hcreated : loan = createdLoan now borrowerID principalAmount rate roi := hloan
  subst hcreated
  have hunfold : Usecase.CreateLoan d now borrowerID principalAmount rate roi w =
      match Repository.InsertLoan d (createdLoan now borrowerID principalAmount rate roi) w with
      | (.error e, w1) => (.error ("failed to insert loan: " ++ e), w1)
      | (.ok (), w1) =>
        match Repository.GenerateAgreementLetter d now.UnixMilli w1 with
        | (.error e, w2) => (.error ("failed to generate agreement letter: " ++ e), w2)
        | (.ok (), w2) => (.ok (), w2) := rfl
  constructor
  · intro e w1 hi
    obtain ⟨hs, hc⟩ := Repository.InsertLoan_cases hi
    rcases hc with ⟨_, hc⟩ | ⟨hc, _⟩
    · rw [hunfold, hi]
      exact ⟨rfl, hc, hs⟩
    · simp at hc
  · intro w1 hi
    obtain ⟨hs, hc⟩ := Repository.InsertLoan_cases hi
    rcases hc with ⟨hc, _⟩ | ⟨_, hc⟩
    · simp at hc
    · have hid : (createdLoan now borrowerID principalAmount rate roi).LoanID
          = now.UnixMilli := rfl
      rw [hid] at hc
      have hl1 : w1.loan? now.UnixMilli
          = some (createdLoan now borrowerID principalAmount rate roi) := by
        simp [World.loan?, World.loans, hc, LoanMap.find?_assign_self]
      refine ⟨⟨hl1, hs⟩, ?_, ?_⟩
      · intro e w2 hg
        rw [hunfold, hi]
        simp only [hg, true_and]
        simp only [Repository.GenerateAgreementLetter, NSQ.Send] at hg
        cases h0 : d w1.calls with
        | some e0 =>
          simp only [h0] at hg
          obtain ⟨_, rfl⟩ := Prod.mk.inj hg
          exact ⟨hl1, hs⟩
        | none => simp [h0] at hg
      · intro w2 hg
        rw [hunfold, hi]
        simp only [hg, true_and]
        simp only [Repository.GenerateAgreementLetter, NSQ.Send] at hg
        cases h0 : d w1.calls with
        | some e0 => simp [h0] at hg
        | none =>
          simp only [h0] at hg
          obtain ⟨_, rfl⟩ := Prod.mk.inj hg
          refine ⟨hl1, ?_⟩
          simp [hs, GenerateAgreementLetterChannel]

theorem createLoan_inserts_then_requests_letter_witness :
    (Usecase.CreateLoan (Drivers.failAt 1 "entry too large") sampleNow 5 1000 0 0 World.initial
        = (.error ("failed to insert loan: " ++
            "failed to set updated loan data in memcache: entry too large"), ⟨none, [], 2⟩)) ∧
    (Usecase.CreateLoan (Drivers.failAt 2 "queue down") sampleNow 5 1000 0 0 World.initial
        = (.error ("failed to generate agreement letter: " ++ "queue down"),
            ⟨some [(1700000000000, createdLoan sampleNow 5 1000 0 0)], [], 3⟩)) ∧
    (Usecase.CreateLoan Drivers.working sampleNow 5 1000 0 0 World.initial
        = (.ok (), ⟨some [(1700000000000, createdLoan sampleNow 5 1000 0 0)],
            [⟨"generate_agreement_letter", [("loan_id", .int 1700000000000)]⟩], 3⟩)) :=
  ⟨((createLoan_inserts_then_requests_letter (Drivers.failAt 1 "entry too large") sampleNow 5
        1000 0 0 World.initial _ rfl).1 _ ⟨none, [], 2⟩ (by decide)).1,
   (((createLoan_inserts_then_requests_letter (Drivers.failAt 2 "queue down") sampleNow 5
        1000 0 0 World.initial _ rfl).2
      ⟨some [(1700000000000, createdLoan sampleNow 5 1000 0 0)], [], 2⟩ (by decide)).2.1
        _ ⟨some [(1700000000000, createdLoan sampleNow 5 1000 0 0)], [], 3⟩ (by decide)).1,
   (((createLoan_inserts_then_requests_letter Drivers.working sampleNow 5
        1000 0 0 World.initial _ rfl).2
      ⟨some [(1700000000000, createdLoan sampleNow 5 1000 0 0)], [], 2⟩ (by decide)).2.2
        ⟨some [(1700000000000, createdLoan sampleNow 5 1000 0 0)],
          [⟨"generate_agreement_letter", [("loan_id", .int 1700000000000)]⟩], 3⟩
        (by decide)).1⟩

/-- C11: when the store read succeeds, `GetLoan` fails with "loan not found" for every
identifier the store holds no record under, in particular, in a store reached from the empty
one, for every identifier under which no `CreateLoan` ever created a loan; and for every
identifier that holds a stored record with non-zero identifier it succeeds and returns exactly
the projection of that record: identifier, borrower, principal, rate, return on investment and
agreement letter URL. -/
theorem getLoan_not_found_or_projection (d : Drivers) (loanID : Int) (w : World)
    (hread : d w.calls = none) :
    (w.loan? loanID = none →
      Usecase.GetLoan d loanID w
        = (.error "loan not found", { w with calls := w.calls + 1 })) ∧
    (∀ calls, w = runCalls d calls World.initial → (∀ c ∈ calls, ¬ c.Creates loanID) →
      Usecase.GetLoan d loanID w
        = (.error "loan not found", { w with calls := w.calls + 1 })) ∧
    (∀ l, w.loan? loanID = some l → l.LoanID ≠ 0 →
      Usecase.GetLoan d loanID w
        = (.ok { LoanID := l.LoanID, BorrowerID := l.BorrowerID,
                 PrincipalAmount := l.PrincipalAmount, Rate := l.Rate, ROI := l.ROI,
                 AgreementLetterURL := l.AgreementLetterURL },
            { w with calls := w.calls + 1 })) := by
  have hmissing : w.loan? loanID = none →
      Usecase.GetLoan d loanID w
        = (.error "loan not found", { w with calls := w.calls + 1 }) := by
    intro hnone
    have hidx : LoanMap.index w.loans loanID = Loan.zeroValue := by
      simp only [World.loan?] at hnone
      simp [LoanMap.index, hnone]
    have hzero : Loan.zeroValue.LoanID = 0 := rfl
    rw [Usecase.GetLoan_eq_of_read d loanID w hread, hidx, if_pos hzero]
  refine ⟨hmissing, ?_, ?_⟩
  · intro calls hw hnever
    apply hmissing
    rw [hw]
    exact runCalls_loan?_none d calls loanID World.initial World.initial_keyed rfl hnever
  · intro l hstored hid
    have hidx : LoanMap.index w.loans loanID = l := LoanMap.index_of_find? hstored
    rw [Usecase.GetLoan_eq_of_read d loanID w hread, hidx, if_neg hid]
    rfl

theorem getLoan_not_found_or_projection_witness :
    Usecase.GetLoan Drivers.working 7 sampleWorld
        = (.error "loan not found", { sampleWorld with calls := sampleWorld.calls + 1 }) ∧
    (Usecase.GetLoan Drivers.working 7
        (runCalls Drivers.working sampleApproveCalls World.initial)).1
        = .error "loan not found" ∧
    Usecase.GetLoan Drivers.working 1 sampleWorld
        = (.ok { LoanID := 1, BorrowerID := 5, PrincipalAmount := 1000, Rate := 0, ROI := 0,
                 AgreementLetterURL := "" },
            { sampleWorld with calls := sampleWorld.calls + 1 }) :=
  ⟨(getLoan_not_found_or_projection Drivers.working 7 sampleWorld rfl).1 (by decide),
   congrArg Prod.fst
    ((getLoan_not_found_or_projection Drivers.working 7
      (runCalls Drivers.working sampleApproveCalls World.initial) rfl).2.1
      sampleApproveCalls rfl
      (by simp [sampleApproveCalls, Call.Creates, sampleNow, Time.UnixMilli])),
   (getLoan_not_found_or_projection Drivers.working 1 sampleWorld rfl).2.2 sampleApproved
      (by decide) (by decide)⟩

/-- C12: on a loan stored under its identifier, a successful `Approve`, `Invest` or `Disburse`
rewrites only the fields its transition owns.  `Approve` succeeds only from `Proposed` and
stores the previous record with state `Approved` and the approval info made of the supplied
proof URL, validator and clock reading; `Invest` succeeds only from `Approved` and stores the
previous record with the investment appended and, when the running total it computed in
`float64` equals the principal, state `Invested` and the agreement letter URL; `Disburse` succeeds only from `Invested` and stores
the previous record with state `Disbursed` and the disbursement info made of the supplied
letter URL, officer and clock reading.  In each case identifier, borrower, principal, rate and
return on investment are unchanged, approval info is changed by `Approve` alone, disbursement
info by `Disburse` alone, and the record under every other identifier is unchanged. -/
theorem transitions_rewrite_only_owned_fields (d : Drivers) (now : Time) (loanID : Int)
    (l : Loan) (w w' : World)
    (hstored : w.loan? loanID = some l) (hkey : l.LoanID = loanID) :
    (∀ url vid, Usecase.Approve d now loanID url vid w = (.ok (), w') →
      l.State = StateEnumProposed ∧
      ∃ l', w'.loan? loanID = some l' ∧
        l' = { l with State := StateEnumApproved, ApprovalInfo := ⟨url, vid, now⟩ } ∧
        l.SameTerms l' ∧ l'.DisbursementInfo = l.DisbursementInfo ∧
        ∀ k, k ≠ loanID → w'.loan? k = w.loan? k) ∧
    (∀ inv, Usecase.Invest d loanID inv w = (.ok (), w') →
      l.State = StateEnumApproved ∧
      ∃ l', w'.loan? loanID = some l' ∧
        l' = { l with
          Investments := l.Investments ++ [inv]
          State :=
            if Float64.eq (totalInvested inv.InvestedAmount l.Investments)
                (.finite l.PrincipalAmount) = true
            then StateEnumInvested else l.State
          AgreementLetterURL :=
            if Float64.eq (totalInvested inv.InvestedAmount l.Investments)
                (.finite l.PrincipalAmount) = true
            then "https://example.com/agreement_letter.pdf" else l.AgreementLetterURL } ∧
        l.SameTerms l' ∧ l'.ApprovalInfo = l.ApprovalInfo ∧
        l'.DisbursementInfo = l.DisbursementInfo ∧
        ∀ k, k ≠ loanID → w'.loan? k = w.loan? k) ∧
    (∀ url oid, Usecase.Disburse d now loanID url oid w = (.ok (), w') →
      l.State = StateEnumInvested ∧
      ∃ l', w'.loan? loanID = some l' ∧
        l' = { l with State := StateEnumDisbursed, DisbursementInfo := ⟨url, oid, now⟩ } ∧
        l.SameTerms l' ∧ l'.ApprovalInfo = l.ApprovalInfo ∧
        ∀ k, k ≠ loanID → w'.loan? k = w.loan? k) := by
  have hidx : LoanMap.index w.loans loanID = l := LoanMap.index_of_find? hstored
  refine ⟨?_, ?_, ?_⟩
  · intro url vid hok
    rcases (Usecase.Approve_cases hok).2 with ⟨hne, _⟩ | ⟨_, _, _, _, hs, hc⟩
    · exact absurd rfl hne
    · rw [hidx] at hs hc
      rw [hkey] at hc
      refine ⟨hs, _, ?_, rfl, ⟨rfl, rfl, rfl, rfl, rfl⟩, rfl, ?_⟩
      · rw [World.loan?_of_assign hc, if_pos rfl]
        rfl
      · intro k hk
        rw [World.loan?_of_assign hc, if_neg hk]
  · intro inv hok
    rcases Usecase.Invest_cases hok with ⟨hne, _⟩ | ⟨_, _, _, _, hs, _, hc, _⟩
    · exact absurd rfl hne
    · rw [hidx] at hs hc
      rw [hkey] at hc
      have hrec : investedLoan l inv = { l with
          Investments := l.Investments ++ [inv]
          State :=
            if Float64.eq (totalInvested inv.InvestedAmount l.Investments)
                (.finite l.PrincipalAmount) = true
            then StateEnumInvested else l.State
          AgreementLetterURL :=
            if Float64.eq (totalInvested inv.InvestedAmount l.Investments)
                (.finite l.PrincipalAmount) = true
            then "https://example.com/agreement_letter.pdf" else l.AgreementLetterURL } := by
        unfold investedLoan
        by_cases heq : Float64.eq (totalInvested inv.InvestedAmount l.Investments)
            (.finite l.PrincipalAmount) = true
        · simp only [if_pos heq]
        · simp only [if_neg heq]
      refine ⟨hs, _, ?_, rfl, ⟨rfl, rfl, rfl, rfl, rfl⟩, rfl, rfl, ?_⟩
      · rw [World.loan?_of_assign hc, if_pos rfl, hrec]
      · intro k hk
        rw [World.loan?_of_assign hc, if_neg hk]
  · intro url oid hok
    rcases (Usecase.Disburse_cases hok).2 with ⟨hne, _⟩ | ⟨_, _, _, _, hs, hc⟩
    · exact absurd rfl hne
    · rw [hidx] at hs hc
      rw [hkey] at hc
      refine ⟨hs, _, ?_, rfl, ⟨rfl, rfl, rfl, rfl, rfl⟩, rfl, ?_⟩
      · rw [World.loan?_of_assign hc, if_pos rfl]
        rfl
      · intro k hk
        rw [World.loan?_of_assign hc, if_neg hk]

theorem transitions_rewrite_only_owned_fields_witness :
    (sampleProposed.State = StateEnumProposed ∧
      ∃ l', World.loan? (Usecase.Approve Drivers.working sampleNow 2 "p.jpg" 7
          sampleProposedWorld).2 2 = some l' ∧
        l' = { sampleProposed with
          State := StateEnumApproved, ApprovalInfo := ⟨"p.jpg", 7, sampleNow⟩ } ∧
        sampleProposed.SameTerms l' ∧
        l'.DisbursementInfo = sampleProposed.DisbursementInfo ∧
        ∀ k, k ≠ 2 → World.loan? (Usecase.Approve Drivers.working sampleNow 2 "p.jpg" 7
          sampleProposedWorld).2 k = sampleProposedWorld.loan? k) ∧
    (sampleApproved.State = StateEnumApproved ∧
      ∃ l', World.loan? (Usecase.Invest Drivers.working 1 ⟨2, 400⟩ sampleWorld).2 1
          = some l' ∧
        l' = { sampleApproved with
          Investments := sampleApproved.Investments ++ [⟨2, 400⟩]
          State :=
            if Float64.eq (totalInvested 400 sampleApproved.Investments)
                (.finite sampleApproved.PrincipalAmount) = true
            then StateEnumInvested else sampleApproved.State
          AgreementLetterURL :=
            if Float64.eq (totalInvested 400 sampleApproved.Investments)
                (.finite sampleApproved.PrincipalAmount) = true
            then "https://example.com/agreement_letter.pdf"
            else sampleApproved.AgreementLetterURL } ∧
        sampleApproved.SameTerms l' ∧ l'.ApprovalInfo = sampleApproved.ApprovalInfo ∧
        l'.DisbursementInfo = sampleApproved.DisbursementInfo ∧
        ∀ k, k ≠ 1 → World.loan? (Usecase.Invest Drivers.working 1 ⟨2, 400⟩ sampleWorld).2 k
          = sampleWorld.loan? k) ∧
    (sampleInvested.State = StateEnumInvested ∧
      ∃ l', World.loan? (Usecase.Disburse Drivers.working sampleNow 3 "signed.pdf" 9
          sampleInvestedWorld).2 3 = some l' ∧
        l' = { sampleInvested with
          State := StateEnumDisbursed, DisbursementInfo := ⟨"signed.pdf", 9, sampleNow⟩ } ∧
        sampleInvested.SameTerms l' ∧ l'.ApprovalInfo = sampleInvested.ApprovalInfo ∧
        ∀ k, k ≠ 3 → World.loan? (Usecase.Disburse Drivers.working sampleNow 3 "signed.pdf" 9
          sampleInvestedWorld).2 k = sampleInvestedWorld.loan? k) :=
  ⟨(transitions_rewrite_only_owned_fields Drivers.working sampleNow 2 sampleProposed
      sampleProposedWorld _ (by decide) (by decide)).1 "p.jpg" 7 (by decide),
   (transitions_rewrite_only_owned_fields Drivers.working sampleNow 1 sampleApproved
      sampleWorld _ (by decide) (by decide)).2.1 ⟨2, 400⟩
      (by decide!),
   (transitions_rewrite_only_owned_fields Drivers.working sampleNow 3 sampleInvested
      sampleInvestedWorld _ (by decide) (by decide)).2.2 "signed.pdf" 9 (by decide)⟩

/-- C13: on an `Approved` loan stored under its non-zero identifier, when a valid investment
brings the running total `Invest` computes in `float64` to exactly the principal, so that the
call reaches full funding, and dispatch number `j` of the loop is the first to fail, `Invest`
returns the error of that dispatch, "failed to publish agreement letter: ...";
the messages of the first `j` investments have been sent and no later one; the store is
unchanged, so it still holds the previous record: state `Approved`, investments without the
new one, agreement letter URL as before, which is empty in every store reached from the empty
one. -/
theorem invest_aborts_at_first_failed_dispatch (d : Drivers) (loanID : Int) (l : Loan)
    (inv : Investment) (w : World) (j : Nat) (e : String)
    (hstored : w.loan? loanID = some l) (hkey : l.LoanID = loanID) (hid : loanID ≠ 0)
    (hstate : l.State = StateEnumApproved)
    (hinv : inv.InvestorID ≠ 0) (hamt : 0 < inv.InvestedAmount)
    (hfull : Float64.eq (totalInvested inv.InvestedAmount l.Investments)
      (.finite l.PrincipalAmount) = true)
    (hread : d w.calls = none)
    (hj : j < (l.Investments ++ [inv]).length)
    (hfail : d (w.calls + 1 + j) = some e)
    (hbefore : ∀ i, i < j → d (w.calls + 1 + i) = none) :
    ∃ w', Usecase.Invest d loanID inv w
        = (.error ("failed to publish agreement letter: " ++ e), w') ∧
      w'.sent = w.sent ++ ((l.Investments ++ [inv]).take j).map (fun i =>
        ⟨"email_agreement_letter",
          [("invested_amount", .num i.InvestedAmount), ("investor_id", .int i.InvestorID),
            ("loan_id", .int loanID)]⟩) ∧
      w'.cache = w.cache ∧
      (∃ l', w'.loan? loanID = some l' ∧ l' = l ∧ l'.State = StateEnumApproved ∧
        l'.Investments = l.Investments ∧ l'.AgreementLetterURL = l.AgreementLetterURL ∧
        (∀ calls, w = runCalls d calls World.initial → l'.AgreementLetterURL = "")) := by
  have hidx : LoanMap.index w.loans loanID = l := LoanMap.index_of_find? hstored
  have hv : ¬ (inv.InvestorID = 0 ∨ inv.InvestedAmount ≤ 0) := by
    push_neg; exact ⟨hinv, hamt⟩
  have hz : ¬ l.LoanID = 0 := by rw [hkey]; exact hid
  have hpub := publishAll_fail d l.LoanID (l.Investments ++ [inv])
    { w with calls := w.calls + 1 } j e hj hfail hbefore
  have hrun : Usecase.Invest d loanID inv w =
      (.error ("failed to publish agreement letter: " ++ e),
        ⟨w.cache, w.sent ++ ((l.Investments ++ [inv]).take j).map (emailMessage l.LoanID),
          w.calls + 1 + j + 1⟩) := by
    unfold Usecase.Invest
    rw [Repository.GetLoan_eq, hidx]
    simp only [hv, if_false, hread]
    rw [if_neg hz, if_neg (not_not.mpr hstate),
      if_neg (by simp [Float64.gt_eq_false_of_eq hfull])]
    simp only [hfull, if_true]
    rw [hpub]
  refine ⟨_, hrun, ?_, rfl, l, ?_, rfl, hstate, rfl, rfl, ?_⟩
  · rw [hkey]
    rfl
  · simpa [World.loan?, World.loans] using hstored
  · intro calls hw
    have hall := runCalls_letterPending d calls World.initial (World.initial_all _)
    rw [← hw] at hall
    exact hall loanID l hstored (Or.inr hstate)

theorem invest_aborts_at_first_failed_dispatch_witness :
    ∃ w', Usecase.Invest (Drivers.failAt 11 "queue down") 1700000000000 ⟨2, 400⟩
          (runCalls (Drivers.failAt 11 "queue down") samplePartlyFundedCalls World.initial)
        = (.error ("failed to publish agreement letter: " ++ "queue down"), w') ∧
      w'.sent =
        [⟨"generate_agreement_letter", [("loan_id", .int 1700000000000)]⟩,
         ⟨"email_agreement_letter",
           [("invested_amount", .num 600), ("investor_id", .int 1),
             ("loan_id", .int 1700000000000)]⟩] ∧
      w'.loan? 1700000000000 = some samplePartlyFunded ∧
      samplePartlyFunded.State = StateEnumApproved ∧
      samplePartlyFunded.Investments = [⟨1, 600⟩] ∧
      samplePartlyFunded.AgreementLetterURL = "" := by
  have hworld : runCalls (Drivers.failAt 11 "queue down") samplePartlyFundedCalls World.initial
      = ⟨some [(1700000000000, samplePartlyFunded)],
          [⟨"generate_agreement_letter", [("loan_id", .int 1700000000000)]⟩], 9⟩ := by
    decide!
  obtain ⟨w', hrun, hsent, _, l', hl', heq, hs, hi, _, hurl⟩ :=
    invest_aborts_at_first_failed_dispatch (Drivers.failAt 11 "queue down") 1700000000000
      samplePartlyFunded ⟨2, 400⟩
      (runCalls (Drivers.failAt 11 "queue down") samplePartlyFundedCalls World.initial)
      1 "queue down"
      (by rw [hworld]; decide) (by decide) (by decide) (by decide) (by decide) (by decide)
      (by decide!)
      (by rw [hworld]; decide) (by decide) (by rw [hworld]; decide)
      (by
        intro i hi
        have h0 : i = 0 := by omega
        subst h0
        rw [hworld]
        decide)
  subst heq
  refine ⟨w', hrun, ?_, hl', hs, hi, hurl samplePartlyFundedCalls rfl⟩
  rw [hsent, hworld]
  rfl

end Amartha
